import Mathlib

/-!
# Borrowing workflow of the library-management service

A shallow embedding of `internal/services/borrowing_service.go` and of the
records of `internal/models/models.go` it works on.

Modelling conventions.

* Identifiers (`uuid.UUID`) and instants (`time.Time`) are natural numbers;
  `Time.After` is `>` and the SQL comparison `due_date < ?` is `<`.
* The database is a `Store`: the live rows of the three tables the workflow
  touches, in insertion order.  The bookkeeping columns `created_at`,
  `updated_at` and `deleted_at` maintained by the ORM are not represented.
* Every store call made by an operation may fail.  An operation takes a fault
  schedule `f : Faults`; `f k = true` says that the `k`-th store call of that
  operation (numbered in the order of the source text) returns an error,
  which the operation hands back unchanged (`Err.store`).
* The clock reads made by one call of an operation are one instant `now`.
* The `int` and `int64` values of the paging code are integers reduced by
  `wrap64` after each arithmetic step, as on a 64-bit platform.
* A sequence of calls is a list of `Call`s run one after the other by `run`;
  each call carries its own instant and fault schedule.
* Every operation returns its result together with the store it leaves
  behind.
-/

namespace Library

/-- Row of the `books` table (`models.Book`). -/
structure Book where
  id : Nat
  title : String
  isbn : String
  authorID : Nat
  available : Bool
  deriving DecidableEq, Repr

/-- Row of the `borrowers` table (`models.Borrower`). -/
structure Borrower where
  id : Nat
  name : String
  email : String
  deriving DecidableEq, Repr

/-- Row of the `borrowings` table (`models.Borrowing`); `status` is the
free-form string column of the source. -/
structure Borrowing where
  id : Nat
  bookID : Nat
  borrowerID : Nat
  borrowedAt : Nat
  dueDate : Nat
  returnedAt : Option Nat
  status : String
  deriving DecidableEq, Repr

/-- Body of a borrow request (`models.BorrowBookRequest`). -/
structure BorrowBookRequest where
  bookID : Nat
  borrowerID : Nat
  dueDate : Nat
  deriving DecidableEq, Repr

/-- Body of a return request (`models.ReturnBookRequest`). -/
structure ReturnBookRequest where
  borrowingID : Nat
  deriving DecidableEq, Repr

/-- The tables read and written by the borrowing workflow. -/
structure Store where
  books : List Book
  borrowers : List Borrower
  borrowings : List Borrowing
  deriving DecidableEq, Repr

/-- Errors returned by the service: a message built with `errors.New`, or an
error of the store handed back as it came. -/
inductive Err where
  | msg (text : String)
  | store
  deriving DecidableEq, Repr

/-- Fault schedule of one operation: `f k` says the `k`-th store call fails. -/
abbrev Faults := Nat → Bool

/-- The schedule in which no store call fails. -/
def noFaults : Faults := fun _ => false

/-- Lookup `db.First(&book, id)`. -/
def firstBook (s : Store) (id : Nat) : Option Book :=
  s.books.find? (fun b => b.id == id)

/-- Lookup `db.First(&borrower, id)`. -/
def firstBorrower (s : Store) (id : Nat) : Option Borrower :=
  s.borrowers.find? (fun b => b.id == id)

/-- Lookup `db.First(&borrowing, id)`. -/
def firstBorrowing (s : Store) (id : Nat) : Option Borrowing :=
  s.borrowings.find? (fun b => b.id == id)

/-- Row filter `borrower_id = ? AND status = 'borrowed' AND due_date < ?`. -/
def isOverdueOf (borrowerID now : Nat) (b : Borrowing) : Bool :=
  b.borrowerID == borrowerID && b.status == "borrowed" && decide (b.dueDate < now)

/-- Row filter `borrower_id = ? AND status = 'borrowed'`. -/
def isActiveOf (borrowerID : Nat) (b : Borrowing) : Bool :=
  b.borrowerID == borrowerID && b.status == "borrowed"

/-- Row filter `status = 'borrowed' AND due_date < ?`. -/
def isLapsed (now : Nat) (b : Borrowing) : Bool :=
  b.status == "borrowed" && decide (b.dueDate < now)

/-- Query `db.Model(&Borrowing{}).Where(p).Count(&n)`. -/
def countBorrowings (s : Store) (p : Borrowing → Bool) : Nat :=
  (s.borrowings.filter p).length

/-- Primary key given by the store to a row inserted without one: a value no
existing borrowing carries. -/
def nextBorrowingID (s : Store) : Nat :=
  (s.borrowings.map (fun b => b.id)).foldr max 0 + 1

/-- Insert `db.Create(borrowing)`: the row receives its primary key and is
appended to the table. -/
def createBorrowing (s : Store) (b : Borrowing) : Store × Borrowing :=
  let row : Borrowing := { b with id := nextBorrowingID s }
  ({ s with borrowings := s.borrowings ++ [row] }, row)

/-- Update `db.Save(&book)` of a book read from the store: every column of the
row with that primary key is overwritten. -/
def saveBook (s : Store) (b : Book) : Store :=
  { s with books := s.books.map (fun x => if x.id == b.id then b else x) }

/-- Update `db.Save(&borrowing)` of a borrowing read from the store. -/
def saveBorrowing (s : Store) (b : Borrowing) : Store :=
  { s with borrowings := s.borrowings.map (fun x => if x.id == b.id then b else x) }

/-- Method `BorrowingService.BorrowBook`.  Store calls: 1 read the book,
2 read the borrower, 3 count the borrower's lapsed borrowings, 4 count the
borrower's active borrowings, 5 insert the borrowing, 6 save the book,
7 reload the inserted borrowing. -/
def BorrowBook (f : Faults) (now : Nat) (s : Store) (req : BorrowBookRequest) :
    Except Err Borrowing × Store :=
  if f 1 then (.error .store, s) else
  match firstBook s req.bookID with
  | none => (.error (.msg "book not found"), s)
  | some book =>
    if !book.available then
      (.error (.msg "book is not available for borrowing"), s)
    else if f 2 then (.error .store, s) else
    match firstBorrower s req.borrowerID with
    | none => (.error (.msg "borrower not found"), s)
    | some _ =>
      if f 3 then (.error .store, s) else
      let overdueCount := countBorrowings s (isOverdueOf req.borrowerID now)
      if overdueCount > 0 then
        (.error (.msg "borrower has overdue books and cannot borrow new books"), s)
      else if f 4 then (.error .store, s) else
      let activeBorrowingCount := countBorrowings s (isActiveOf req.borrowerID)
      if activeBorrowingCount ≥ 5 then
        (.error (.msg "borrower has reached maximum borrowing limit"), s)
      else
      let borrowing : Borrowing :=
        { id := 0, bookID := req.bookID, borrowerID := req.borrowerID,
          borrowedAt := now, dueDate := req.dueDate, returnedAt := none,
          status := "borrowed" }
      if f 5 then (.error .store, s) else
      let (s1, created) := createBorrowing s borrowing
      if f 6 then (.error .store, s1) else
      let s2 := saveBook s1 { book with available := false }
      if f 7 then (.error .store, s2) else
      match firstBorrowing s2 created.id with
      | none => (.error .store, s2)
      | some loaded => (.ok loaded, s2)

/-- Method `BorrowingService.ReturnBook`.  Store calls: 1 read the borrowing
with its book preloaded, 2 save the borrowing, 3 save the book.  When no live
book row matches the borrowing, the preloaded book is the zero value, which
has no row to overwrite; the store call saving it is taken to be refused. -/
def ReturnBook (f : Faults) (now : Nat) (s : Store) (req : ReturnBookRequest) :
    Except Err Borrowing × Store :=
  if f 1 then (.error .store, s) else
  match firstBorrowing s req.borrowingID with
  | none => (.error (.msg "borrowing record not found"), s)
  | some borrowing =>
    if borrowing.status != "borrowed" then
      (.error (.msg "book is not currently borrowed"), s)
    else
    let returned : Borrowing :=
      { borrowing with returnedAt := some now, status := "returned" }
    let updated : Borrowing :=
      if now > returned.dueDate then { returned with status := "overdue" } else returned
    if f 2 then (.error .store, s) else
    let s1 := saveBorrowing s updated
    if f 3 then (.error .store, s1) else
    match firstBook s borrowing.bookID with
    | none => (.error .store, s1)
    | some book => (.ok updated, saveBook s1 { book with available := true })

/-- Method `BorrowingService.UpdateOverdueStatus`.  Store call: 1 the bulk
update `SET status = 'overdue' WHERE status = 'borrowed' AND due_date < now`. -/
def UpdateOverdueStatus (f : Faults) (now : Nat) (s : Store) : Except Err Unit × Store :=
  if f 1 then (.error .store, s) else
  (.ok (),
    { s with borrowings :=
        s.borrowings.map (fun b => if isLapsed now b then { b with status := "overdue" } else b) })

/-- A run of borrow requests, each made at its own instant with no store
fault; the results are listed in request order. -/
def borrowAll (s : Store) : List (Nat × BorrowBookRequest) → Store × List (Except Err Borrowing)
  | [] => (s, [])
  | (now, req) :: rest =>
    let r := BorrowBook noFaults now s req
    let t := borrowAll r.2 rest
    (t.1, r.1 :: t.2)

/-- The availability predicate of the data model: a book is unavailable
exactly when some borrowing of it has status `borrowed`. -/
def AvailabilityInv (s : Store) : Prop :=
  ∀ k ∈ s.books, (k.available = false ↔
    ∃ b ∈ s.borrowings, b.bookID = k.id ∧ b.status = "borrowed")

/-- One direction of `AvailabilityInv`: a book with a `borrowed` borrowing is
unavailable. -/
def BorrowedUnavailable (s : Store) : Prop :=
  ∀ k ∈ s.books, (∃ b ∈ s.borrowings, b.bookID = k.id ∧ b.status = "borrowed") →
    k.available = false

/-- A borrowing that is still held after its due date: not yet returned and
due before `now`, whatever its status. -/
def heldPastDue (now : Nat) (b : Borrowing) : Bool :=
  b.returnedAt.isNone && decide (b.dueDate < now)

/-- The row `BorrowBook` inserts for a request made at `now`, with the
primary key the store gives it. -/
def borrowedRow (now : Nat) (s : Store) (req : BorrowBookRequest) : Borrowing :=
  { id := nextBorrowingID s, bookID := req.bookID, borrowerID := req.borrowerID,
    borrowedAt := now, dueDate := req.dueDate, returnedAt := none, status := "borrowed" }

/-- The store `BorrowBook` leaves once both of its writes are done. -/
def borrowedStore (now : Nat) (s : Store) (req : BorrowBookRequest) (book : Book) : Store :=
  saveBook { s with borrowings := s.borrowings ++ [borrowedRow now s req] }
    { book with available := false }

/-- The row `ReturnBook` saves for borrowing `b` returned at `now`. -/
def returnedRow (now : Nat) (b : Borrowing) : Borrowing :=
  { b with returnedAt := some now,
           status := if now > b.dueDate then "overdue" else "returned" }

/-- A small library: six books on the shelf, one lent out to borrower 8. -/
def demoStore : Store :=
  { books := [⟨1, "Emma", "i1", 1, true⟩, ⟨2, "Ulysses", "i2", 2, true⟩,
              ⟨3, "Dune", "i3", 3, true⟩, ⟨4, "Ivanhoe", "i4", 4, true⟩,
              ⟨5, "Kim", "i5", 5, true⟩, ⟨6, "Walden", "i6", 6, true⟩,
              ⟨9, "Hamlet", "i9", 7, false⟩],
    borrowers := [⟨7, "Ada", "ada@example.org"⟩, ⟨8, "Bob", "bob@example.org"⟩],
    borrowings := [⟨1, 9, 8, 0, 7, none, "borrowed"⟩] }

/-- The demo library before its one loan: book 9 still on the shelf. -/
def shelfStore : Store :=
  { demoStore with
    books := demoStore.books.map (fun k => { k with available := true }),
    borrowings := [] }

/-- Fault schedule in which only the save of the book (call 6 of
`BorrowBook`) fails. -/
def saveBookFails : Faults := fun k => k == 6

/-- Six requests of borrower 7, made at instant 5 for books 1 to 6, each due
at 20. -/
def sixRequests : List (Nat × BorrowBookRequest) :=
  [(5, ⟨1, 7, 20⟩), (5, ⟨2, 7, 20⟩), (5, ⟨3, 7, 20⟩), (5, ⟨4, 7, 20⟩), (5, ⟨5, 7, 20⟩),
   (5, ⟨6, 7, 20⟩)]

/-- A store in which book 9 has two `borrowed` borrowings at once. -/
def twoLoansStore : Store :=
  { books := [⟨9, "Hamlet", "i9", 7, false⟩],
    borrowers := [⟨7, "Ada", "ada@example.org"⟩, ⟨8, "Bob", "bob@example.org"⟩],
    borrowings := [⟨1, 9, 8, 0, 7, none, "borrowed"⟩, ⟨2, 9, 7, 0, 7, none, "borrowed"⟩] }

/-- The store after the insert of `BorrowBook` and before its save of the
book. -/
def insertedStore (now : Nat) (s : Store) (req : BorrowBookRequest) : Store :=
  { s with borrowings := s.borrowings ++ [borrowedRow now s req] }

/-- The three operations of the borrowing workflow. -/
inductive Op where
  | borrow (req : BorrowBookRequest)
  | giveBack (req : ReturnBookRequest)
  | sweep

/-- One call of a workflow operation: the operation, the instant at which it
runs and the fault schedule of its store calls. -/
structure Call where
  faults : Faults
  now : Nat
  op : Op

/-- The store left by one call. -/
def step (s : Store) (c : Call) : Store :=
  match c.op with
  | .borrow req => (BorrowBook c.faults c.now s req).2
  | .giveBack req => (ReturnBook c.faults c.now s req).2
  | .sweep => (UpdateOverdueStatus c.faults c.now s).2

/-- The store left by a sequence of calls made one after the other. -/
def run (s : Store) (cs : List Call) : Store :=
  cs.foldl step s

/-- Every status in the table is one of the three named in the model. -/
def ValidStatuses (s : Store) : Prop :=
  ∀ b ∈ s.borrowings, b.status = "borrowed" ∨ b.status = "returned" ∨ b.status = "overdue"

/-- A borrowing with a return time does not have status `borrowed`. -/
def ReturnedNotBorrowed (s : Store) : Prop :=
  ∀ b ∈ s.borrowings, b.returnedAt ≠ none → b.status ≠ "borrowed"

/-- No borrower has more than five borrowings with status `borrowed`. -/
def AtMostFive (s : Store) : Prop :=
  ∀ x, countBorrowings s (isActiveOf x) ≤ 5

/-- Two's-complement wraparound of a 64-bit signed machine integer (Go `int`
on 64-bit platforms, and `int64`). -/
def wrap64 (x : Int) : Int :=
  (x + 2 ^ 63) % 2 ^ 64 - 2 ^ 63

/-- The clamps the listing handlers apply to the parsed `page` and `limit`
query parameters: `if page < 1 { page = 1 }` and
`if limit < 1 || limit > 100 { limit = 10 }`. -/
def clampPaging (page limit : Int) : Int × Int :=
  (if page < 1 then 1 else page, if limit < 1 ∨ limit > 100 then 10 else limit)

/-- The statement `offset := (page - 1) * limit` of the listing services, in
machine arithmetic. -/
def pageOffset (page limit : Int) : Int :=
  wrap64 (wrap64 (page - 1) * limit)

/-- The handlers' `total_pages` expression
`(total + int64(limit) - 1) / int64(limit)` in `int64` arithmetic, whose
division truncates toward zero. -/
def totalPages (total limit : Int) : Int :=
  wrap64 (Int.tdiv (wrap64 (wrap64 (total + limit) - 1)) limit)

/-- Clause `Order("due_date ASC")`: rows by ascending due date, rows with equal
due dates in table order. -/
def orderByDueDate (l : List Borrowing) : List Borrowing :=
  l.insertionSort (fun a b => a.dueDate ≤ b.dueDate)

/-- Clauses `Offset(offset).Limit(limit)` applied to the ordered rows: a
positive offset skips that many rows and any other offset skips none; a
negative limit keeps all the rows. -/
def offsetLimit (offset limit : Int) (l : List Borrowing) : List Borrowing :=
  if limit < 0 then l.drop offset.toNat else (l.drop offset.toNat).take limit.toNat

/-- Method `BorrowingService.GetOverdueBorrowings`.  Store calls: 1 count the
lapsed borrowings, 2 read the requested window of them.  The store is only
read. -/
def GetOverdueBorrowings (f : Faults) (now : Nat) (s : Store) (page limit : Int) :
    Except Err (List Borrowing × Int) :=
  let offset := pageOffset page limit
  if f 1 then .error .store else
  let total : Int := countBorrowings s (isLapsed now)
  if f 2 then .error .store else
  let borrowings :=
    offsetLimit offset limit (orderByDueDate (s.borrowings.filter (isLapsed now)))
  .ok (borrowings, total)

/-- Five loans of borrower 7 at instant 0, due at 7, a sweep at 20, and a
sixth loan at 21. -/
def lapseAndBorrowAgain : List Call :=
  [⟨noFaults, 0, .borrow ⟨1, 7, 7⟩⟩, ⟨noFaults, 0, .borrow ⟨2, 7, 7⟩⟩,
   ⟨noFaults, 0, .borrow ⟨3, 7, 7⟩⟩, ⟨noFaults, 0, .borrow ⟨4, 7, 7⟩⟩,
   ⟨noFaults, 0, .borrow ⟨5, 7, 7⟩⟩, ⟨noFaults, 20, .sweep⟩,
   ⟨noFaults, 21, .borrow ⟨6, 7, 30⟩⟩]

/-- A store in which book 9 has two `borrowed` borrowings, one due at 7 and
one due at 30. -/
def mixedLoansStore : Store :=
  { books := [⟨9, "Hamlet", "i9", 7, false⟩],
    borrowers := [⟨7, "Ada", "ada@example.org"⟩, ⟨8, "Bob", "bob@example.org"⟩],
    borrowings := [⟨1, 9, 8, 0, 7, none, "borrowed"⟩, ⟨2, 9, 7, 0, 30, none, "borrowed"⟩] }

/-- A library with seven borrowings: five `borrowed` ones due at 9, 3, 7, 1 and
5, one `borrowed` one due at 50 and one returned in time. -/
def overdueStore : Store :=
  { books := [⟨1, "Emma", "i1", 1, false⟩, ⟨2, "Ulysses", "i2", 2, false⟩,
              ⟨3, "Dune", "i3", 3, false⟩, ⟨4, "Ivanhoe", "i4", 4, false⟩,
              ⟨5, "Kim", "i5", 5, false⟩, ⟨6, "Walden", "i6", 6, false⟩,
              ⟨9, "Hamlet", "i9", 7, true⟩],
    borrowers := [⟨7, "Ada", "ada@example.org"⟩, ⟨8, "Bob", "bob@example.org"⟩],
    borrowings := [⟨1, 1, 7, 0, 9, none, "borrowed"⟩, ⟨2, 2, 7, 0, 3, none, "borrowed"⟩,
                   ⟨3, 9, 8, 0, 4, some 2, "returned"⟩, ⟨4, 3, 7, 0, 7, none, "borrowed"⟩,
                   ⟨5, 4, 8, 0, 1, none, "borrowed"⟩, ⟨6, 5, 8, 0, 50, none, "borrowed"⟩,
                   ⟨7, 6, 8, 0, 5, none, "borrowed"⟩] }

/-! ## Auxiliary facts about the store primitives -/

theorem le_foldr_max (l : List Nat) (x : Nat) (hx : x ∈ l) : x ≤ l.foldr max 0 := by
  induction l with
  | nil => cases hx
  | cons a l ih =>
    simp only [List.foldr_cons]
    rcases List.mem_cons.mp hx with h | h
    · subst h; exact Nat.le_max_left _ _
    · exact Nat.le_trans (ih h) (Nat.le_max_right _ _)

theorem lt_nextBorrowingID (s : Store) (b : Borrowing) (hb : b ∈ s.borrowings) :
    b.id < nextBorrowingID s := by
  unfold nextBorrowingID
  have := le_foldr_max (s.borrowings.map (fun b => b.id)) b.id (List.mem_map_of_mem _ hb)
  omega

theorem find?_fresh (s : Store) :
    s.borrowings.find? (fun b => b.id == nextBorrowingID s) = none := by
  rw [List.find?_eq_none]
  intro b hb
  have := lt_nextBorrowingID s b hb
  simp
  omega

theorem find?_map_upd {α : Type} (key : α → Nat) (v : α) (l : List α) (k : Nat) :
    (l.map (fun x => if key x == key v then v else x)).find? (fun x => key x == k)
      = (l.find? (fun x => key x == k)).map (fun x => if key x == key v then v else x) := by
  induction l with
  | nil => rfl
  | cons a l ih =>
    rw [List.map_cons, List.find?_cons, List.find?_cons, ih]
    by_cases hav : key a = key v
    · have e1 : (key a == key v) = true := by simp [hav]
      simp only [e1, if_true]
      rw [show key v = key a from hav.symm]
      cases hk : (key a == k)
      · rfl
      · simp
    · have e1 : (key a == key v) = false := by simp [hav]
      simp only [e1, Bool.false_eq_true, if_false]
      cases hk : (key a == k)
      · rfl
      · simp [hav]

theorem BorrowBook_success_eq (f : Faults) (now : Nat) (s : Store) (req : BorrowBookRequest)
    (book : Book) (borrower : Borrower)
    (h1 : f 1 = false) (h2 : f 2 = false) (h3 : f 3 = false) (h4 : f 4 = false)
    (h5 : f 5 = false) (h6 : f 6 = false) (h7 : f 7 = false)
    (hb : firstBook s req.bookID = some book) (ha : book.available = true)
    (hr : firstBorrower s req.borrowerID = some borrower)
    (ho : countBorrowings s (isOverdueOf req.borrowerID now) = 0)
    (hl : countBorrowings s (isActiveOf req.borrowerID) < 5) :
    BorrowBook f now s req = (.ok (borrowedRow now s req), borrowedStore now s req book) := by
  have hl' : ¬ 5 ≤ countBorrowings s (isActiveOf req.borrowerID) := by omega
  have hfind : firstBorrowing (borrowedStore now s req book) (nextBorrowingID s)
      = some (borrowedRow now s req) := by
    simp [firstBorrowing, borrowedStore, saveBook, List.find?_append, find?_fresh, borrowedRow]
  simp only [borrowedStore, borrowedRow] at hfind
  simp [BorrowBook, h1, h2, h3, h4, h5, h6, h7, hb, ha, hr, ho, hl', createBorrowing, hfind,
    borrowedStore, borrowedRow]

theorem BorrowBook_ok_inv (f : Faults) (now : Nat) (s : Store) (req : BorrowBookRequest)
    (row : Borrowing) (h : (BorrowBook f now s req).1 = .ok row) :
    ∃ book, firstBook s req.bookID = some book ∧ book.available = true ∧
      (firstBorrower s req.borrowerID).isSome = true ∧
      countBorrowings s (isOverdueOf req.borrowerID now) = 0 ∧
      countBorrowings s (isActiveOf req.borrowerID) < 5 ∧
      BorrowBook f now s req = (.ok (borrowedRow now s req), borrowedStore now s req book) := by
  unfold BorrowBook at h
  cases h1 : f 1
  swap
  · simp [h1] at h
  cases hb : firstBook s req.bookID with
  | none => simp [h1, hb] at h
  | some book =>
  cases ha : book.available
  · simp [h1, hb, ha] at h
  cases h2 : f 2
  swap
  · simp [h1, hb, ha, h2] at h
  cases hr : firstBorrower s req.borrowerID with
  | none => simp [h1, hb, ha, h2, hr] at h
  | some borrower =>
  cases h3 : f 3
  swap
  · simp [h1, hb, ha, h2, hr, h3] at h
  by_cases ho : countBorrowings s (isOverdueOf req.borrowerID now) = 0
  swap
  · have : 0 < countBorrowings s (isOverdueOf req.borrowerID now) := by omega
    simp [h1, hb, ha, h2, hr, h3, this] at h
  cases h4 : f 4
  swap
  · simp [h1, hb, ha, h2, hr, h3, ho, h4] at h
  by_cases hl : countBorrowings s (isActiveOf req.borrowerID) < 5
  swap
  · have : 5 ≤ countBorrowings s (isActiveOf req.borrowerID) := by omega
    simp [h1, hb, ha, h2, hr, h3, ho, h4, this] at h
  have hl' : ¬ 5 ≤ countBorrowings s (isActiveOf req.borrowerID) := by omega
  cases h5 : f 5
  swap
  · simp [h1, hb, ha, h2, hr, h3, ho, h4, hl', h5] at h
  cases h6 : f 6
  swap
  · simp [h1, hb, ha, h2, hr, h3, ho, h4, hl', h5, h6, createBorrowing] at h
  cases h7 : f 7
  swap
  · simp [h1, hb, ha, h2, hr, h3, ho, h4, hl', h5, h6, h7, createBorrowing] at h
  exact ⟨book, rfl, ha, by simp [hr], ho, hl,
    BorrowBook_success_eq f now s req book borrower h1 h2 h3 h4 h5 h6 h7 hb ha hr ho hl⟩

theorem ReturnBook_success_eq (f : Faults) (now : Nat) (s : Store) (req : ReturnBookRequest)
    (b : Borrowing) (book : Book)
    (h1 : f 1 = false) (h2 : f 2 = false) (h3 : f 3 = false)
    (hb : firstBorrowing s req.borrowingID = some b) (hs : b.status = "borrowed")
    (hk : firstBook s b.bookID = some book) :
    ReturnBook f now s req =
      (.ok (returnedRow now b),
        saveBook (saveBorrowing s (returnedRow now b)) { book with available := true }) := by
  by_cases hd : b.dueDate < now
  · simp [ReturnBook, h1, h2, h3, hb, hs, hk, hd, returnedRow]
  · simp [ReturnBook, h1, h2, h3, hb, hs, hk, hd, returnedRow]

theorem ReturnBook_ok_inv (f : Faults) (now : Nat) (s : Store) (req : ReturnBookRequest)
    (row : Borrowing) (h : (ReturnBook f now s req).1 = .ok row) :
    ∃ b book, firstBorrowing s req.borrowingID = some b ∧ b.status = "borrowed" ∧
      firstBook s b.bookID = some book ∧
      ReturnBook f now s req =
        (.ok (returnedRow now b),
          saveBook (saveBorrowing s (returnedRow now b)) { book with available := true }) := by
  unfold ReturnBook at h
  cases h1 : f 1
  swap
  · simp [h1] at h
  cases hb : firstBorrowing s req.borrowingID with
  | none => simp [h1, hb] at h
  | some b =>
  by_cases hs : b.status = "borrowed"
  swap
  · simp [h1, hb, hs] at h
  cases h2 : f 2
  swap
  · simp [h1, hb, hs, h2] at h
  cases h3 : f 3
  swap
  · simp [h1, hb, hs, h2, h3] at h
  cases hk : firstBook s b.bookID with
  | none => simp [h1, hb, hs, h2, h3, hk] at h
  | some book =>
  exact ⟨b, book, rfl, hs, hk, ReturnBook_success_eq f now s req b book h1 h2 h3 hb hs hk⟩

theorem returnedRow_status_ne (now : Nat) (b : Borrowing) :
    (returnedRow now b).status ≠ "borrowed" := by
  unfold returnedRow
  by_cases h : now > b.dueDate
  · simp [h]
  · simp [h]

theorem firstBook_mem_id (s : Store) (id : Nat) (book : Book)
    (h : firstBook s id = some book) : book ∈ s.books ∧ book.id = id := by
  refine ⟨List.mem_of_find?_eq_some h, ?_⟩
  have := List.find?_some h
  simpa using this

theorem firstBorrowing_mem_id (s : Store) (id : Nat) (b : Borrowing)
    (h : firstBorrowing s id = some b) : b ∈ s.borrowings ∧ b.id = id := by
  refine ⟨List.mem_of_find?_eq_some h, ?_⟩
  have := List.find?_some h
  simpa using this

theorem AvailabilityInv_borrowedStore (now : Nat) (s : Store) (req : BorrowBookRequest)
    (book : Book) (hinv : AvailabilityInv s) (hb : firstBook s req.bookID = some book)
    (ha : book.available = true) : AvailabilityInv (borrowedStore now s req book) := by
  obtain ⟨hmem, hid⟩ := firstBook_mem_id s req.bookID book hb
  have hnone : ¬ ∃ b ∈ s.borrowings, b.bookID = book.id ∧ b.status = "borrowed" := by
    intro h
    have := (hinv book hmem).mpr h
    simp [ha] at this
  intro k hk
  simp only [borrowedStore, saveBook, List.mem_map] at hk
  obtain ⟨x, hx, rfl⟩ := hk
  by_cases hxb : x.id = book.id
  · simp only [hxb, beq_self_eq_true, if_true, true_iff]
    exact ⟨borrowedRow now s req, by simp [borrowedStore, saveBook], by simp [borrowedRow, hid],
      rfl⟩
  · have hxb' : (x.id == book.id) = false := by simp [hxb]
    simp only [hxb', Bool.false_eq_true, if_false]
    rw [hinv x hx]
    constructor
    · rintro ⟨b, hbm, h1, h2⟩
      exact ⟨b, by simp [borrowedStore, saveBook, hbm], h1, h2⟩
    · rintro ⟨b, hbm, h1, h2⟩
      simp only [borrowedStore, saveBook, List.mem_append, List.mem_singleton] at hbm
      rcases hbm with hbm | hbm
      · exact ⟨b, hbm, h1, h2⟩
      · subst hbm
        simp only [borrowedRow] at h1
        exact absurd (hid.trans h1).symm hxb

theorem AvailabilityInv_returned (now : Nat) (s : Store) (id : Nat) (b : Borrowing)
    (book : Book) (hinv : AvailabilityInv s)
    (hnd : (s.borrowings.map Borrowing.id).Nodup)
    (hb : firstBorrowing s id = some b) (hk : firstBook s b.bookID = some book)
    (hu : ∀ x ∈ s.borrowings, x.bookID = b.bookID → x.status = "borrowed" → x.id = b.id) :
    AvailabilityInv (saveBook (saveBorrowing s (returnedRow now b))
      { book with available := true }) := by
  obtain ⟨hbmem, _⟩ := firstBorrowing_mem_id s id b hb
  obtain ⟨_, hkid⟩ := firstBook_mem_id s b.bookID book hk
  have hrid : (returnedRow now b).id = b.id := rfl
  have hrbook : (returnedRow now b).bookID = b.bookID := rfl
  intro k hkm
  simp only [saveBook, saveBorrowing, List.mem_map] at hkm
  obtain ⟨x, hx, rfl⟩ := hkm
  by_cases hxb : x.id = book.id
  · simp only [hxb, beq_self_eq_true, if_true]
    constructor
    · intro h
      simp at h
    · rintro ⟨y, hy, h1, h2⟩
      exfalso
      simp only [saveBook, saveBorrowing, List.mem_map] at hy
      obtain ⟨z, hz, rfl⟩ := hy
      by_cases hzb : z.id = b.id
      · simp only [hrid, hzb, beq_self_eq_true, if_true] at h2
        exact returnedRow_status_ne now b h2
      · have hzb' : (z.id == b.id) = false := by simp [hzb]
        simp only [hrid, hzb', Bool.false_eq_true, if_false] at h1 h2
        exact hzb (hu z hz (h1.trans hkid) h2)
  · have hxb' : (x.id == book.id) = false := by simp [hxb]
    simp only [hxb', Bool.false_eq_true, if_false]
    rw [hinv x hx]
    constructor
    · rintro ⟨y, hy, h1, h2⟩
      have hyb : ¬ y.id = b.id := by
        intro h
        have : y = b := List.inj_on_of_nodup_map hnd hy hbmem h
        subst this
        exact hxb (h1.symm.trans hkid.symm)
      refine ⟨y, ?_, h1, h2⟩
      simp only [saveBook, saveBorrowing, List.mem_map]
      exact ⟨y, hy, by simp [hrid, hyb]⟩
    · rintro ⟨y, hy, h1, h2⟩
      simp only [saveBook, saveBorrowing, List.mem_map] at hy
      obtain ⟨z, hz, rfl⟩ := hy
      by_cases hzb : z.id = b.id
      · simp only [hrid, hzb, beq_self_eq_true, if_true] at h2
        exact absurd h2 (returnedRow_status_ne now b)
      · have hzb' : (z.id == b.id) = false := by simp [hzb]
        simp only [hrid, hzb', Bool.false_eq_true, if_false] at h1 h2
        exact ⟨z, hz, h1, h2⟩

theorem sweep_noop (f : Faults) (now : Nat) (s : Store)
    (h : countBorrowings s (isLapsed now) = 0) : (UpdateOverdueStatus f now s).2 = s := by
  unfold UpdateOverdueStatus
  cases hf : f 1
  swap
  · simp
  have hall : ∀ b ∈ s.borrowings, isLapsed now b = false := by
    intro b hb
    unfold countBorrowings at h
    have := List.length_eq_zero.mp h
    rw [List.filter_eq_nil_iff] at this
    simpa using this b hb
  have hmap : s.borrowings.map
      (fun b => if isLapsed now b then { b with status := "overdue" } else b) = s.borrowings := by
    conv_rhs => rw [← List.map_id s.borrowings]
    apply List.map_congr_left
    intro b hb
    simp [hall b hb]
  simp [hmap]

theorem sweep_borrowed_subset (now : Nat) (s : Store) (b : Borrowing)
    (hb : b ∈ (UpdateOverdueStatus noFaults now s).2.borrowings) (hs : b.status = "borrowed") :
    b ∈ s.borrowings ∧ isLapsed now b = false := by
  simp only [UpdateOverdueStatus, noFaults, Bool.false_eq_true, if_false, List.mem_map] at hb
  obtain ⟨x, hx, rfl⟩ := hb
  cases hl : isLapsed now x
  · simp only [hl, Bool.false_eq_true, if_false]
    exact ⟨hx, trivial⟩
  · simp [hl] at hs

theorem BorrowBook_outcome (f : Faults) (now : Nat) (s : Store) (req : BorrowBookRequest) :
    (∃ e, BorrowBook f now s req = (.error e, s)) ∨
    ((f 1 = false ∧ f 2 = false ∧ f 3 = false ∧ f 4 = false ∧ f 5 = false) ∧
      ((f 6 = true ∧ BorrowBook f now s req =
          (.error .store, { s with borrowings := s.borrowings ++ [borrowedRow now s req] })) ∨
       (f 6 = false ∧ f 7 = true ∧ ∃ book, firstBook s req.bookID = some book ∧
          BorrowBook f now s req = (.error .store, borrowedStore now s req book)) ∨
       (f 6 = false ∧ f 7 = false ∧ ∃ book, firstBook s req.bookID = some book ∧
          BorrowBook f now s req =
            (.ok (borrowedRow now s req), borrowedStore now s req book)))) := by
  cases h1 : f 1
  swap
  · exact Or.inl ⟨_, by simp [BorrowBook, h1]; rfl⟩
  cases hb : firstBook s req.bookID with
  | none => exact Or.inl ⟨_, by simp [BorrowBook, h1, hb]; rfl⟩
  | some book =>
  cases ha : book.available
  · exact Or.inl ⟨_, by simp [BorrowBook, h1, hb, ha]; rfl⟩
  cases h2 : f 2
  swap
  · exact Or.inl ⟨_, by simp [BorrowBook, h1, hb, ha, h2]; rfl⟩
  cases hr : firstBorrower s req.borrowerID with
  | none => exact Or.inl ⟨_, by simp [BorrowBook, h1, hb, ha, h2, hr]; rfl⟩
  | some borrower =>
  cases h3 : f 3
  swap
  · exact Or.inl ⟨_, by simp [BorrowBook, h1, hb, ha, h2, hr, h3]; rfl⟩
  by_cases ho : countBorrowings s (isOverdueOf req.borrowerID now) = 0
  swap
  · have : 0 < countBorrowings s (isOverdueOf req.borrowerID now) := by omega
    exact Or.inl ⟨_, by simp [BorrowBook, h1, hb, ha, h2, hr, h3, this]; rfl⟩
  cases h4 : f 4
  swap
  · exact Or.inl ⟨_, by simp [BorrowBook, h1, hb, ha, h2, hr, h3, ho, h4]; rfl⟩
  by_cases hl : countBorrowings s (isActiveOf req.borrowerID) < 5
  swap
  · have : 5 ≤ countBorrowings s (isActiveOf req.borrowerID) := by omega
    exact Or.inl ⟨_, by simp [BorrowBook, h1, hb, ha, h2, hr, h3, ho, h4, this]; rfl⟩
  have hl' : ¬ 5 ≤ countBorrowings s (isActiveOf req.borrowerID) := by omega
  cases h5 : f 5
  swap
  · exact Or.inl ⟨_, by simp [BorrowBook, h1, hb, ha, h2, hr, h3, ho, h4, hl', h5]; rfl⟩
  refine Or.inr ⟨⟨rfl, rfl, rfl, rfl, rfl⟩, ?_⟩
  cases h6 : f 6
  swap
  · refine Or.inl ⟨rfl, ?_⟩
    simp [BorrowBook, h1, hb, ha, h2, hr, h3, ho, h4, hl', h5, h6, createBorrowing, borrowedRow]
  cases h7 : f 7
  swap
  · refine Or.inr (Or.inl ⟨rfl, rfl, book, rfl, ?_⟩)
    simp [BorrowBook, h1, hb, ha, h2, hr, h3, ho, h4, hl', h5, h6, h7, createBorrowing,
      borrowedRow, borrowedStore]
  · exact Or.inr (Or.inr ⟨rfl, rfl, book, rfl,
      BorrowBook_success_eq f now s req book borrower h1 h2 h3 h4 h5 h6 h7 hb ha hr ho hl⟩)

theorem countBorrowings_borrowedStore (now : Nat) (s : Store) (req : BorrowBookRequest)
    (book : Book) (p : Borrowing → Bool) :
    countBorrowings (borrowedStore now s req book) p =
      countBorrowings s p + (if p (borrowedRow now s req) = true then 1 else 0) := by
  simp only [countBorrowings, borrowedStore, saveBook, List.filter_append, List.length_append]
  cases hp : p (borrowedRow now s req) <;> simp [List.filter_cons, hp]

theorem firstBook_borrowedStore_ne (now : Nat) (s : Store) (req : BorrowBookRequest)
    (book : Book) (id : Nat) (hid : book.id = req.bookID) (h : id ≠ req.bookID) :
    firstBook (borrowedStore now s req book) id = firstBook s id := by
  simp only [firstBook, borrowedStore, saveBook]
  rw [find?_map_upd Book.id { book with available := false } s.books id]
  cases hfind : s.books.find? (fun x => x.id == id) with
  | none => rfl
  | some k =>
    have hk : k.id = id := by
      have := List.find?_some hfind
      simpa using this
    have hne : ¬ k.id = book.id := by
      rw [hk, hid]
      exact h
    simp [hne]

theorem countOverdue_zero (s : Store) (x now : Nat)
    (h : ∀ b ∈ s.borrowings, isActiveOf x b = true → now ≤ b.dueDate) :
    countBorrowings s (isOverdueOf x now) = 0 := by
  unfold countBorrowings
  rw [List.length_eq_zero, List.filter_eq_nil_iff]
  intro b hb ho
  simp only [isOverdueOf, Bool.and_eq_true, decide_eq_true_eq] at ho
  have := h b hb (by simp only [isActiveOf, Bool.and_eq_true]; exact ho.1)
  omega

theorem BorrowBook_limit_eq (f : Faults) (now : Nat) (s : Store) (req : BorrowBookRequest)
    (book : Book) (borrower : Borrower)
    (h1 : f 1 = false) (h2 : f 2 = false) (h3 : f 3 = false) (h4 : f 4 = false)
    (hb : firstBook s req.bookID = some book) (ha : book.available = true)
    (hr : firstBorrower s req.borrowerID = some borrower)
    (ho : countBorrowings s (isOverdueOf req.borrowerID now) = 0)
    (hl : 5 ≤ countBorrowings s (isActiveOf req.borrowerID)) :
    BorrowBook f now s req =
      (.error (.msg "borrower has reached maximum borrowing limit"), s) := by
  simp [BorrowBook, h1, h2, h3, h4, hb, ha, hr, ho, hl]

theorem borrowAll_append (l1 l2 : List (Nat × BorrowBookRequest)) :
    ∀ s : Store, borrowAll s (l1 ++ l2) =
      ((borrowAll (borrowAll s l1).1 l2).1,
        (borrowAll s l1).2 ++ (borrowAll (borrowAll s l1).1 l2).2) := by
  induction l1 with
  | nil => intro s; rfl
  | cons a l ih =>
    intro s
    obtain ⟨now, req⟩ := a
    show borrowAll s ((now, req) :: (l ++ l2)) = _
    simp only [borrowAll]
    rw [ih]
    rfl

theorem borrowAll_all_ok (x : Nat) :
    ∀ (rs : List (Nat × BorrowBookRequest)) (s : Store),
      (firstBorrower s x).isSome = true →
      countBorrowings s (isActiveOf x) + rs.length ≤ 5 →
      (∀ b ∈ s.borrowings, isActiveOf x b = true → ∀ r ∈ rs, r.1 ≤ b.dueDate) →
      (∀ r ∈ rs, r.2.borrowerID = x) →
      (rs.map (fun r => r.2.bookID)).Nodup →
      (∀ r ∈ rs, (firstBook s r.2.bookID).map (fun k => k.available) = some true) →
      (∀ r ∈ rs, ∀ r' ∈ rs, r.1 ≤ r'.2.dueDate) →
      (∃ rows : List Borrowing,
        (borrowAll s rs).2 = rows.map Except.ok ∧ rows.length = rs.length) ∧
      (firstBorrower (borrowAll s rs).1 x).isSome = true ∧
      countBorrowings (borrowAll s rs).1 (isActiveOf x) =
        countBorrowings s (isActiveOf x) + rs.length ∧
      (∀ b ∈ (borrowAll s rs).1.borrowings, isActiveOf x b = true →
        b ∈ s.borrowings ∨ ∃ r ∈ rs, b.dueDate = r.2.dueDate) ∧
      (∀ id, id ∉ rs.map (fun r => r.2.bookID) →
        firstBook (borrowAll s rs).1 id = firstBook s id) := by
  intro rs
  induction rs with
  | nil =>
    intro s hx _ _ _ _ _ _
    exact ⟨⟨[], rfl, rfl⟩, hx, rfl, fun b hb _ => Or.inl hb, fun _ _ => rfl⟩
  | cons a rest ih =>
    intro s hx hcount hdue hbor hnd hbooks htimes
    obtain ⟨now, req⟩ := a
    have hreq : req.borrowerID = x := hbor (now, req) (List.mem_cons_self _ _)
    obtain ⟨book, hb, ha⟩ :
        ∃ book, firstBook s req.bookID = some book ∧ book.available = true := by
      have := hbooks (now, req) (List.mem_cons_self _ _)
      simpa using this
    obtain ⟨borrower, hr⟩ : ∃ borrower, firstBorrower s req.borrowerID = some borrower := by
      rw [hreq]
      exact Option.isSome_iff_exists.mp hx
    have hid : book.id = req.bookID := (firstBook_mem_id s req.bookID book hb).2
    have ho : countBorrowings s (isOverdueOf req.borrowerID now) = 0 := by
      rw [hreq]
      exact countOverdue_zero s x now
        (fun b hbm hact => hdue b hbm hact (now, req) (List.mem_cons_self _ _))
    have hl : countBorrowings s (isActiveOf req.borrowerID) < 5 := by
      rw [hreq]
      simp only [List.length_cons] at hcount
      omega
    have hstep := BorrowBook_success_eq noFaults now s req book borrower rfl rfl rfl rfl rfl
      rfl rfl hb ha hr ho hl
    have hrow : isActiveOf x (borrowedRow now s req) = true := by
      simp [isActiveOf, borrowedRow, hreq]
    have hcnt1 : countBorrowings (borrowedStore now s req book) (isActiveOf x) =
        countBorrowings s (isActiveOf x) + 1 := by
      rw [countBorrowings_borrowedStore, hrow]
      rfl
    have hnd' : req.bookID ∉ rest.map (fun r => r.2.bookID) ∧
        (rest.map (fun r => r.2.bookID)).Nodup := List.nodup_cons.mp hnd
    have hIH := ih (borrowedStore now s req book) hx
      (by rw [hcnt1]; simp only [List.length_cons] at hcount; omega)
      (by
        intro b hbm hact r hrm
        simp only [borrowedStore, saveBook, List.mem_append, List.mem_singleton] at hbm
        rcases hbm with hbm | hbm
        · exact hdue b hbm hact r (List.mem_cons_of_mem _ hrm)
        · subst hbm
          exact htimes r (List.mem_cons_of_mem _ hrm) (now, req) (List.mem_cons_self _ _))
      (fun r hrm => hbor r (List.mem_cons_of_mem _ hrm))
      hnd'.2
      (by
        intro r hrm
        have hne : r.2.bookID ≠ req.bookID := by
          intro h
          apply hnd'.1
          rw [← h]
          exact List.mem_map_of_mem (fun r => r.2.bookID) hrm
        rw [firstBook_borrowedStore_ne now s req book r.2.bookID hid hne]
        exact hbooks r (List.mem_cons_of_mem _ hrm))
      (fun r hrm r' hrm' =>
        htimes r (List.mem_cons_of_mem _ hrm) r' (List.mem_cons_of_mem _ hrm'))
    obtain ⟨⟨rows, hrows, hlen⟩, hx', hcnt, horigin, hfb⟩ := hIH
    have hrun : borrowAll s ((now, req) :: rest) =
        ((borrowAll (borrowedStore now s req book) rest).1,
          Except.ok (borrowedRow now s req) ::
            (borrowAll (borrowedStore now s req book) rest).2) := by
      simp only [borrowAll, hstep]
    rw [hrun]
    refine ⟨⟨borrowedRow now s req :: rows, ?_, ?_⟩, hx', ?_, ?_, ?_⟩
    · simp [hrows]
    · simp [hlen]
    · simp only [hcnt, hcnt1, List.length_cons]
      omega
    · intro b hbm hact
      rcases horigin b hbm hact with h | ⟨r, hrm, h⟩
      · simp only [borrowedStore, saveBook, List.mem_append, List.mem_singleton] at h
        rcases h with h | h
        · exact Or.inl h
        · subst h
          exact Or.inr ⟨(now, req), List.mem_cons_self _ _, rfl⟩
      · exact Or.inr ⟨r, List.mem_cons_of_mem _ hrm, h⟩
    · intro id hidn
      simp only [List.map_cons, List.mem_cons, not_or] at hidn
      rw [hfb id hidn.2]
      exact firstBook_borrowedStore_ne now s req book id hid hidn.1

/-! ## BorrowBook -/

/-- C1: with no fault in its four reads, `BorrowBook` fails with the error of
the first violated precondition, in the order book exists, book available,
borrower exists, no lapsed borrowing, fewer than five active borrowings, and
leaves the store as it was; an unavailable book is refused with the
not-available error whatever the borrower id. -/
theorem BorrowBook_first_violated (f : Faults) (now : Nat) (s : Store) (req : BorrowBookRequest)
    (hf : ∀ k, k ≤ 4 → f k = false) :
    (firstBook s req.bookID = none →
      BorrowBook f now s req = (.error (.msg "book not found"), s)) ∧
    (∀ book, firstBook s req.bookID = some book → book.available = false →
      BorrowBook f now s req = (.error (.msg "book is not available for borrowing"), s)) ∧
    (∀ book, firstBook s req.bookID = some book → book.available = true →
      firstBorrower s req.borrowerID = none →
      BorrowBook f now s req = (.error (.msg "borrower not found"), s)) ∧
    (∀ book borrower, firstBook s req.bookID = some book → book.available = true →
      firstBorrower s req.borrowerID = some borrower →
      0 < countBorrowings s (isOverdueOf req.borrowerID now) →
      BorrowBook f now s req =
        (.error (.msg "borrower has overdue books and cannot borrow new books"), s)) ∧
    (∀ book borrower, firstBook s req.bookID = some book → book.available = true →
      firstBorrower s req.borrowerID = some borrower →
      countBorrowings s (isOverdueOf req.borrowerID now) = 0 →
      5 ≤ countBorrowings s (isActiveOf req.borrowerID) →
      BorrowBook f now s req =
        (.error (.msg "borrower has reached maximum borrowing limit"), s)) := by
  have h1 := hf 1 (by omega)
  have h2 := hf 2 (by omega)
  have h3 := hf 3 (by omega)
  have h4 := hf 4 (by omega)
  refine ⟨?_, ?_, ?_, ?_, ?_⟩
  · intro hb
    simp [BorrowBook, h1, hb]
  · intro book hb ha
    simp [BorrowBook, h1, hb, ha]
  · intro book hb ha hr
    simp [BorrowBook, h1, h2, hb, ha, hr]
  · intro book borrower hb ha hr ho
    simp [BorrowBook, h1, h2, h3, hb, ha, hr, ho]
  · intro book borrower hb ha hr ho hl
    simp [BorrowBook, h1, h2, h3, h4, hb, ha, hr, ho, hl]

/-- Witness for C1: the lent-out book 9 is refused to borrower 7, and equally
to the unknown borrower 99. -/
theorem BorrowBook_first_violated_witness :
    BorrowBook noFaults 5 demoStore ⟨9, 7, 20⟩ =
        (.error (.msg "book is not available for borrowing"), demoStore) ∧
    BorrowBook noFaults 5 demoStore ⟨9, 99, 20⟩ =
        (.error (.msg "book is not available for borrowing"), demoStore) :=
  ⟨(BorrowBook_first_violated noFaults 5 demoStore ⟨9, 7, 20⟩ (fun _ _ => rfl)).2.1
      ⟨9, "Hamlet", "i9", 7, false⟩ rfl rfl,
   (BorrowBook_first_violated noFaults 5 demoStore ⟨9, 99, 20⟩ (fun _ _ => rfl)).2.1
      ⟨9, "Hamlet", "i9", 7, false⟩ rfl rfl⟩

/-- C2: when the five preconditions hold and no store call fails, `BorrowBook`
succeeds; the borrowing table is the old one followed by one new row, which
carries the requested book and borrower, status `borrowed`, `borrowed_at = now`,
the requested due date and no return time, and whose id no old row has; the
book is unavailable afterwards; the value returned is that row. -/
theorem BorrowBook_succeeds (f : Faults) (now : Nat) (s : Store) (req : BorrowBookRequest)
    (book : Book) (borrower : Borrower) (hf : ∀ k, f k = false)
    (hb : firstBook s req.bookID = some book) (ha : book.available = true)
    (hr : firstBorrower s req.borrowerID = some borrower)
    (ho : countBorrowings s (isOverdueOf req.borrowerID now) = 0)
    (hl : countBorrowings s (isActiveOf req.borrowerID) < 5) :
    ∃ row s', BorrowBook f now s req = (.ok row, s') ∧
      row.bookID = req.bookID ∧ row.borrowerID = req.borrowerID ∧
      row.status = "borrowed" ∧ row.borrowedAt = now ∧ row.dueDate = req.dueDate ∧
      row.returnedAt = none ∧
      s'.borrowings = s.borrowings ++ [row] ∧
      (∀ b ∈ s.borrowings, b.id ≠ row.id) ∧
      firstBook s' req.bookID = some { book with available := false } ∧
      (∀ k ∈ s'.books, k.id = req.bookID → k.available = false) := by
  have hid : book.id = req.bookID := by
    have := List.find?_some hb
    simpa using this
  refine ⟨borrowedRow now s req, borrowedStore now s req book,
    BorrowBook_success_eq f now s req book borrower (hf 1) (hf 2) (hf 3) (hf 4) (hf 5) (hf 6)
      (hf 7) hb ha hr ho hl, rfl, rfl, rfl, rfl, rfl, rfl, rfl, ?_, ?_, ?_⟩
  · intro b hbm
    have := lt_nextBorrowingID s b hbm
    simp only [borrowedRow]
    omega
  · have h := find?_map_upd Book.id { book with available := false } s.books req.bookID
    simp only [firstBook, borrowedStore, saveBook]
    rw [h]
    simp only [firstBook] at hb
    rw [hb]
    simp
  · intro k hk hkid
    simp only [borrowedStore, saveBook, List.mem_map] at hk
    obtain ⟨x, hx, rfl⟩ := hk
    by_cases hxb : x.id = book.id
    · simp [hxb]
    · have : ¬ x.id = req.bookID := by rw [← hid]; exact hxb
      simp [hxb] at hkid
      exact absurd hkid this

/-- Witness for C2: borrower 7 borrows book 1 from the demo library. -/
theorem BorrowBook_succeeds_witness :
    ∃ row s', BorrowBook noFaults 5 demoStore ⟨1, 7, 20⟩ = (.ok row, s') ∧
      row.bookID = 1 ∧ row.borrowerID = 7 ∧
      row.status = "borrowed" ∧ row.borrowedAt = 5 ∧ row.dueDate = 20 ∧
      row.returnedAt = none ∧
      s'.borrowings = demoStore.borrowings ++ [row] ∧
      (∀ b ∈ demoStore.borrowings, b.id ≠ row.id) ∧
      firstBook s' 1 = some ⟨1, "Emma", "i1", 1, false⟩ ∧
      (∀ k ∈ s'.books, k.id = 1 → k.available = false) :=
  BorrowBook_succeeds noFaults 5 demoStore ⟨1, 7, 20⟩ ⟨1, "Emma", "i1", 1, true⟩
    ⟨7, "Ada", "ada@example.org"⟩ (fun _ => rfl) rfl rfl rfl rfl (by decide)

/-! ## ReturnBook -/

/-- C3: for an existing borrowing with status `borrowed` whose book row exists,
and with no store fault, `ReturnBook` at `now` succeeds; the stored borrowing
gets `returned_at = now` and status `overdue` when `now` is after the due date
and `returned` otherwise (also when `now` is the due date), its other columns
stay, and the book is available afterwards. -/
theorem ReturnBook_succeeds (f : Faults) (now : Nat) (s : Store) (req : ReturnBookRequest)
    (b : Borrowing) (book : Book) (hf : ∀ k, f k = false)
    (hb : firstBorrowing s req.borrowingID = some b) (hs : b.status = "borrowed")
    (hk : firstBook s b.bookID = some book) :
    ∃ row s', ReturnBook f now s req = (.ok row, s') ∧
      row = { b with returnedAt := some now,
                     status := if now > b.dueDate then "overdue" else "returned" } ∧
      (now = b.dueDate → row.status = "returned") ∧
      firstBorrowing s' req.borrowingID = some row ∧
      firstBook s' b.bookID = some { book with available := true } ∧
      (∀ k ∈ s'.books, k.id = b.bookID → k.available = true) := by
  have hid : b.id = req.borrowingID := by
    have := List.find?_some hb
    simpa using this
  have hkid : book.id = b.bookID := by
    have := List.find?_some hk
    simpa using this
  refine ⟨returnedRow now b, _,
    ReturnBook_success_eq f now s req b book (hf 1) (hf 2) (hf 3) hb hs hk, rfl, ?_, ?_, ?_, ?_⟩
  · intro h
    simp [returnedRow, h]
  · have h := find?_map_upd Borrowing.id (returnedRow now b) s.borrowings req.borrowingID
    simp only [firstBorrowing, saveBook, saveBorrowing]
    rw [h]
    simp only [firstBorrowing] at hb
    rw [hb]
    simp [returnedRow]
  · have h := find?_map_upd Book.id { book with available := true } s.books b.bookID
    simp only [firstBook, saveBook, saveBorrowing]
    rw [h]
    simp only [firstBook] at hk
    rw [hk]
    simp
  · intro k hk' hkb
    simp only [saveBook, saveBorrowing, List.mem_map] at hk'
    obtain ⟨x, hx, rfl⟩ := hk'
    by_cases hxb : x.id = book.id
    · simp [hxb]
    · have : ¬ x.id = b.bookID := by rw [← hkid]; exact hxb
      simp [hxb] at hkb
      exact absurd hkb this

/-- Witness for C3: the borrowing of the demo library, due at 7, returned at
10, ends `overdue` with its book back on the shelf. -/
theorem ReturnBook_succeeds_witness :
    ∃ row s', ReturnBook noFaults 10 demoStore ⟨1⟩ = (.ok row, s') ∧
      row = ⟨1, 9, 8, 0, 7, some 10, "overdue"⟩ ∧
      ((10 : Nat) = 7 → row.status = "returned") ∧
      firstBorrowing s' 1 = some row ∧
      firstBook s' 9 = some ⟨9, "Hamlet", "i9", 7, true⟩ ∧
      (∀ k ∈ s'.books, k.id = 9 → k.available = true) :=
  ReturnBook_succeeds noFaults 10 demoStore ⟨1⟩ ⟨1, 9, 8, 0, 7, none, "borrowed"⟩
    ⟨9, "Hamlet", "i9", 7, false⟩ (fun _ => rfl) rfl rfl rfl

/-- C7: when the first read does not fail, `ReturnBook` answers `borrowing
record not found` if no borrowing has the id, and `book is not currently
borrowed` if the borrowing found has any status other than `borrowed`; in
both cases the store is left as it was. -/
theorem ReturnBook_rejects (f : Faults) (now : Nat) (s : Store) (req : ReturnBookRequest)
    (hf : f 1 = false) :
    (firstBorrowing s req.borrowingID = none →
      ReturnBook f now s req = (.error (.msg "borrowing record not found"), s)) ∧
    (∀ b, firstBorrowing s req.borrowingID = some b → b.status ≠ "borrowed" →
      ReturnBook f now s req = (.error (.msg "book is not currently borrowed"), s)) := by
  refine ⟨?_, ?_⟩
  · intro hb
    simp [ReturnBook, hf, hb]
  · intro b hb hs
    simp [ReturnBook, hf, hb, hs]

/-- Witness for C7: id 42 names no borrowing of the demo library, and after
a sweep at 20 its one borrowing is `overdue`, so returning it is refused. -/
theorem ReturnBook_rejects_witness :
    ReturnBook noFaults 21 demoStore ⟨42⟩ =
        (.error (.msg "borrowing record not found"), demoStore) ∧
    ReturnBook noFaults 21 (UpdateOverdueStatus noFaults 20 demoStore).2 ⟨1⟩ =
        (.error (.msg "book is not currently borrowed"),
          (UpdateOverdueStatus noFaults 20 demoStore).2) :=
  ⟨(ReturnBook_rejects noFaults 21 demoStore ⟨42⟩ rfl).1 rfl,
   (ReturnBook_rejects noFaults 21 (UpdateOverdueStatus noFaults 20 demoStore).2 ⟨1⟩ rfl).2
      ⟨1, 9, 8, 0, 7, none, "overdue"⟩ rfl (by decide)⟩

/-! ## The overdue block -/

/-- C4: borrower 8 borrows book 9 at 0, due at 7 (which yields the demo
library).  At 21 the book is still out, and a further request by borrower 8 is
refused for overdue books.  Once the sweep has run at 20 the same borrowing is
still held past its due date, yet the same request at 21 succeeds. -/
theorem overdue_holder_borrows_after_sweep :
    (BorrowBook noFaults 0 shelfStore ⟨9, 8, 7⟩).2 = demoStore ∧
    (BorrowBook noFaults 21 demoStore ⟨1, 8, 30⟩).1 =
      .error (.msg "borrower has overdue books and cannot borrow new books") ∧
    (UpdateOverdueStatus noFaults 20 demoStore).2.borrowings =
      [⟨1, 9, 8, 0, 7, none, "overdue"⟩] ∧
    (∃ b ∈ (UpdateOverdueStatus noFaults 20 demoStore).2.borrowings,
      b.borrowerID = 8 ∧ heldPastDue 21 b = true) ∧
    (BorrowBook noFaults 21 (UpdateOverdueStatus noFaults 20 demoStore).2 ⟨1, 8, 30⟩).1 =
      .ok ⟨2, 1, 8, 21, 30, none, "borrowed"⟩ := by
  refine ⟨rfl, rfl, rfl, ⟨⟨1, 9, 8, 0, 7, none, "overdue"⟩, ?_, rfl, rfl⟩, rfl⟩
  simp [UpdateOverdueStatus, noFaults, demoStore, isLapsed]

/-! ## The availability predicate -/

/-- C5, as stated, fails: the demo library satisfies the availability
predicate, the sweep at 20 succeeds on it, and afterwards book 9 is
unavailable although no borrowing of it has status `borrowed`.  Likewise a
store in which book 9 has two `borrowed` borrowings satisfies the predicate,
returning one of them succeeds, and afterwards book 9 is available although
the other borrowing is still `borrowed`. -/
theorem AvailabilityInv_not_preserved :
    (AvailabilityInv demoStore ∧
      (UpdateOverdueStatus noFaults 20 demoStore).1 = .ok () ∧
      ¬ AvailabilityInv (UpdateOverdueStatus noFaults 20 demoStore).2) ∧
    (AvailabilityInv twoLoansStore ∧
      (ReturnBook noFaults 5 twoLoansStore ⟨1⟩).1 = .ok ⟨1, 9, 8, 0, 7, some 5, "returned"⟩ ∧
      ¬ AvailabilityInv (ReturnBook noFaults 5 twoLoansStore ⟨1⟩).2) := by
  refine ⟨⟨?_, rfl, ?_⟩, ⟨?_, rfl, ?_⟩⟩
  · unfold AvailabilityInv
    simp [demoStore]
  · unfold AvailabilityInv
    simp [UpdateOverdueStatus, noFaults, demoStore, isLapsed]
  · unfold AvailabilityInv
    simp [twoLoansStore]
  · have hs : (ReturnBook noFaults 5 twoLoansStore ⟨1⟩).2 =
        { books := [⟨9, "Hamlet", "i9", 7, true⟩],
          borrowers := twoLoansStore.borrowers,
          borrowings := [⟨1, 9, 8, 0, 7, some 5, "returned"⟩,
            ⟨2, 9, 7, 0, 7, none, "borrowed"⟩] } := rfl
    rw [hs]
    unfold AvailabilityInv
    simp

/-- C5, amended: from a store satisfying the availability predicate, every
successful `BorrowBook` leaves it satisfied; so does every successful
`ReturnBook`, provided borrowing ids are unique and the borrowing returned is
the only `borrowed` one of its book; a sweep that finds no lapsed borrowing
leaves the store as it is; after any sweep every book that still has a
`borrowed` borrowing is unavailable; and after a successful sweep at `now` the
predicate holds exactly when every unavailable book has a `borrowed` borrowing
that is not due before `now`. -/
theorem AvailabilityInv_preserved (f : Faults) (now : Nat) (s : Store)
    (hinv : AvailabilityInv s) :
    (∀ req row, (BorrowBook f now s req).1 = .ok row →
      AvailabilityInv (BorrowBook f now s req).2) ∧
    (∀ req row b, (ReturnBook f now s req).1 = .ok row →
      firstBorrowing s req.borrowingID = some b →
      (s.borrowings.map Borrowing.id).Nodup →
      (∀ x ∈ s.borrowings, x.bookID = b.bookID → x.status = "borrowed" → x.id = b.id) →
      AvailabilityInv (ReturnBook f now s req).2) ∧
    (countBorrowings s (isLapsed now) = 0 →
      (UpdateOverdueStatus f now s).2 = s ∧ AvailabilityInv (UpdateOverdueStatus f now s).2) ∧
    BorrowedUnavailable (UpdateOverdueStatus f now s).2 ∧
    ((UpdateOverdueStatus f now s).1 = .ok () →
      (AvailabilityInv (UpdateOverdueStatus f now s).2 ↔
        ∀ k ∈ s.books, k.available = false →
          ∃ b ∈ s.borrowings, b.bookID = k.id ∧ b.status = "borrowed" ∧ now ≤ b.dueDate)) := by
  have hun : BorrowedUnavailable (UpdateOverdueStatus noFaults now s).2 := by
    intro k hk hex
    obtain ⟨b, hb, h1, h2⟩ := hex
    exact (hinv k hk).mpr ⟨b, (sweep_borrowed_subset now s b hb h2).1, h1, h2⟩
  refine ⟨?_, ?_, ?_, ?_, ?_⟩
  rotate_left 4
  · intro hok
    have hf : f 1 = false := by
      cases hf : f 1
      · rfl
      · simp [UpdateOverdueStatus, hf] at hok
    have hfun : UpdateOverdueStatus f now s = UpdateOverdueStatus noFaults now s := by
      simp [UpdateOverdueStatus, hf, noFaults]
    rw [hfun]
    constructor
    · intro hafter k hk hav
      obtain ⟨b, hb, h1, h2⟩ := (hafter k hk).mp hav
      obtain ⟨hbm, hbl⟩ := sweep_borrowed_subset now s b hb h2
      refine ⟨b, hbm, h1, h2, ?_⟩
      simp only [isLapsed, h2, beq_self_eq_true, Bool.true_and, decide_eq_false_iff_not] at hbl
      omega
    · intro hcond k hk
      constructor
      · intro hav
        obtain ⟨b, hbm, h1, h2, h3⟩ := hcond k hk hav
        have hbl : isLapsed now b = false := by
          simp only [isLapsed, h2, beq_self_eq_true, Bool.true_and, decide_eq_false_iff_not]
          omega
        refine ⟨b, ?_, h1, h2⟩
        simp only [UpdateOverdueStatus, noFaults, Bool.false_eq_true, if_false, List.mem_map]
        exact ⟨b, hbm, by simp [hbl]⟩
      · exact hun k hk
  · intro req row hok
    obtain ⟨book, hb, ha, _, _, _, heq⟩ := BorrowBook_ok_inv f now s req row hok
    rw [heq]
    exact AvailabilityInv_borrowedStore now s req book hinv hb ha
  · intro req row b hok hb hnd hu
    obtain ⟨b', book, hb', _, hk, heq⟩ := ReturnBook_ok_inv f now s req row hok
    have hbb : b' = b := by
      rw [hb] at hb'
      exact (Option.some.inj hb').symm
    subst hbb
    rw [heq]
    exact AvailabilityInv_returned now s req.borrowingID b' book hinv hnd hb hk hu
  · intro h
    have := sweep_noop f now s h
    exact ⟨this, by rw [this]; exact hinv⟩
  · intro k hk hex
    cases hf : f 1
    · have hfun : UpdateOverdueStatus f now s = UpdateOverdueStatus noFaults now s := by
        simp [UpdateOverdueStatus, hf, noFaults]
      rw [hfun] at hk hex
      obtain ⟨b, hb, h1, h2⟩ := hex
      have hbs := (sweep_borrowed_subset now s b hb h2).1
      have hk' : k ∈ s.books := by
        simpa [UpdateOverdueStatus, noFaults] using hk
      exact (hinv k hk').mpr ⟨b, hbs, h1, h2⟩
    · have hfun : (UpdateOverdueStatus f now s).2 = s := by
        simp [UpdateOverdueStatus, hf]
      rw [hfun] at hk hex
      exact (hinv k hk).mpr hex

/-- Witness for C5 (amended): in the demo library borrower 7 borrows book 1,
borrower 8 returns book 9, a sweep at 3 finds nothing lapsed, and a sweep at
20 keeps every book with a `borrowed` borrowing unavailable; in the library
where book 9 has loans due at 7 and at 30, the sweep at 20 keeps the
predicate. -/
theorem AvailabilityInv_preserved_witness :
    AvailabilityInv demoStore ∧
    AvailabilityInv (BorrowBook noFaults 5 demoStore ⟨1, 7, 20⟩).2 ∧
    AvailabilityInv (ReturnBook noFaults 5 demoStore ⟨1⟩).2 ∧
    (UpdateOverdueStatus noFaults 3 demoStore).2 = demoStore ∧
    BorrowedUnavailable (UpdateOverdueStatus noFaults 20 demoStore).2 ∧
    AvailabilityInv mixedLoansStore ∧
    AvailabilityInv (UpdateOverdueStatus noFaults 20 mixedLoansStore).2 := by
  have hinv : AvailabilityInv demoStore := by
    unfold AvailabilityInv
    simp [demoStore]
  have hmix : AvailabilityInv mixedLoansStore := by
    unfold AvailabilityInv
    simp [mixedLoansStore]
  have h5 := AvailabilityInv_preserved noFaults 5 demoStore hinv
  have h3 := AvailabilityInv_preserved noFaults 3 demoStore hinv
  have h20 := AvailabilityInv_preserved noFaults 20 demoStore hinv
  have hm := AvailabilityInv_preserved noFaults 20 mixedLoansStore hmix
  refine ⟨hinv, h5.1 ⟨1, 7, 20⟩ ⟨2, 1, 7, 5, 20, none, "borrowed"⟩ rfl,
    h5.2.1 ⟨1⟩ ⟨1, 9, 8, 0, 7, some 5, "returned"⟩ ⟨1, 9, 8, 0, 7, none, "borrowed"⟩ rfl rfl
      (by simp [demoStore]) (by simp [demoStore]), (h3.2.2.1 (by decide)).1, h20.2.2.2.1,
    hmix, (hm.2.2.2.2 rfl).mpr ?_⟩
  simp [mixedLoansStore]

/-! ## The borrowing limit -/

/-- C6: a borrower with five or more `borrowed` borrowings is never granted a
`BorrowBook`, whatever the store calls do, and when the reads do not fail, the
book exists and is available, the borrower exists and none of the borrower's
`borrowed` borrowings is past due, the answer is the limit error with the
store unchanged.  Conversely, for an existing borrower without borrowings, six
requests for six distinct available books, with every due date not before any
of the request instants, give five successes followed by the limit error. -/
theorem borrowing_limit (f : Faults) (now : Nat) (s : Store) (req : BorrowBookRequest) :
    (5 ≤ countBorrowings s (isActiveOf req.borrowerID) →
      (∀ row, (BorrowBook f now s req).1 ≠ .ok row) ∧
      ((∀ k, k ≤ 4 → f k = false) → ∀ book borrower,
        firstBook s req.bookID = some book → book.available = true →
        firstBorrower s req.borrowerID = some borrower →
        countBorrowings s (isOverdueOf req.borrowerID now) = 0 →
        BorrowBook f now s req =
          (.error (.msg "borrower has reached maximum borrowing limit"), s))) ∧
    (∀ (x : Nat) (rs : List (Nat × BorrowBookRequest)), rs.length = 6 →
      (firstBorrower s x).isSome = true →
      (∀ b ∈ s.borrowings, b.borrowerID ≠ x) →
      (∀ r ∈ rs, r.2.borrowerID = x) →
      (rs.map (fun r => r.2.bookID)).Nodup →
      (∀ r ∈ rs, (firstBook s r.2.bookID).map (fun k => k.available) = some true) →
      (∀ r ∈ rs, ∀ r' ∈ rs, r.1 ≤ r'.2.dueDate) →
      ∃ rows : List Borrowing, rows.length = 5 ∧
        (borrowAll s rs).2 = rows.map Except.ok ++
          [.error (.msg "borrower has reached maximum borrowing limit")]) := by
  refine ⟨?_, ?_⟩
  · intro hl
    refine ⟨?_, ?_⟩
    · intro row hok
      obtain ⟨_, _, _, _, _, hlt, _⟩ := BorrowBook_ok_inv f now s req row hok
      omega
    · intro hf book borrower hb ha hr ho
      exact BorrowBook_limit_eq f now s req book borrower (hf 1 (by omega)) (hf 2 (by omega))
        (hf 3 (by omega)) (hf 4 (by omega)) hb ha hr ho hl
  · intro x rs hlen hx hnone hbor hnd hbooks htimes
    have hne : rs ≠ [] := by
      intro h
      rw [h] at hlen
      cases hlen
    rcases List.eq_nil_or_concat rs with h | ⟨init, last, hrs⟩
    · exact absurd h hne
    rw [List.concat_eq_append] at hrs
    subst hrs
    have hinit : init.length = 5 := by
      simp only [List.length_append, List.length_singleton] at hlen
      omega
    have hzero : countBorrowings s (isActiveOf x) = 0 := by
      unfold countBorrowings
      rw [List.length_eq_zero, List.filter_eq_nil_iff]
      intro b hb hact
      simp only [isActiveOf, Bool.and_eq_true, beq_iff_eq] at hact
      exact hnone b hb hact.1
    have hmem_init : ∀ r ∈ init, r ∈ init ++ [last] := fun r hr =>
      List.mem_append_left _ hr
    have hmem_last : last ∈ init ++ [last] := List.mem_append_right _ (List.mem_singleton_self _)
    have hnd2 : (init.map (fun r => r.2.bookID)).Nodup ∧
        last.2.bookID ∉ init.map (fun r => r.2.bookID) := by
      rw [List.map_append, List.nodup_append] at hnd
      refine ⟨hnd.1, ?_⟩
      intro h
      exact hnd.2.2 h (by simp)
    obtain ⟨⟨rows, hrows, hrlen⟩, hx5, hcnt5, horigin, hfb⟩ :=
      borrowAll_all_ok x init s hx (by rw [hzero, hinit])
        (by
          intro b hb hact
          simp only [isActiveOf, Bool.and_eq_true, beq_iff_eq] at hact
          exact absurd hact.1 (hnone b hb))
        (fun r hr => hbor r (hmem_init r hr)) hnd2.1
        (fun r hr => hbooks r (hmem_init r hr))
        (fun r hr r' hr' => htimes r (hmem_init r hr) r' (hmem_init r' hr'))
    obtain ⟨now6, req6⟩ := last
    have hreq6 : req6.borrowerID = x := hbor (now6, req6) hmem_last
    obtain ⟨book, hb, ha⟩ : ∃ book,
        firstBook (borrowAll s init).1 req6.bookID = some book ∧ book.available = true := by
      rw [hfb req6.bookID hnd2.2]
      have := hbooks (now6, req6) hmem_last
      simpa using this
    obtain ⟨borrower, hr⟩ :
        ∃ borrower, firstBorrower (borrowAll s init).1 req6.borrowerID = some borrower := by
      rw [hreq6]
      exact Option.isSome_iff_exists.mp hx5
    have ho : countBorrowings (borrowAll s init).1 (isOverdueOf req6.borrowerID now6) = 0 := by
      rw [hreq6]
      apply countOverdue_zero
      intro b hbm hact
      rcases horigin b hbm hact with h | ⟨r, hrm, h⟩
      · simp only [isActiveOf, Bool.and_eq_true, beq_iff_eq] at hact
        exact absurd hact.1 (hnone b h)
      · rw [h]
        exact htimes (now6, req6) hmem_last r (hmem_init r hrm)
    have hl : 5 ≤ countBorrowings (borrowAll s init).1 (isActiveOf req6.borrowerID) := by
      rw [hreq6, hcnt5, hzero, hinit]
    have hsixth := BorrowBook_limit_eq noFaults now6 (borrowAll s init).1 req6 book borrower
      rfl rfl rfl rfl hb ha hr ho hl
    refine ⟨rows, by rw [hrlen, hinit], ?_⟩
    rw [borrowAll_append, hrows]
    simp only [borrowAll, hsixth]

/-- Witness for C6: in the demo library borrower 7, who holds nothing, is
granted books 1 to 5 and refused book 6 for the limit. -/
theorem borrowing_limit_witness :
    ∃ rows : List Borrowing, rows.length = 5 ∧
      (borrowAll demoStore sixRequests).2 = rows.map Except.ok ++
        [.error (.msg "borrower has reached maximum borrowing limit")] :=
  (borrowing_limit noFaults 0 demoStore ⟨1, 7, 20⟩).2 7 sixRequests rfl rfl
    (by decide) (by decide) (by decide) (by decide) (by decide)

/-! ## Atomicity of BorrowBook -/

/-- C8, as stated, fails: when the save of the book fails, `BorrowBook` in the
demo library returns the store error although the new borrowing has been
inserted, book 1 still being marked available. -/
theorem BorrowBook_not_atomic :
    (BorrowBook saveBookFails 5 demoStore ⟨1, 7, 20⟩).1 = .error .store ∧
    (BorrowBook saveBookFails 5 demoStore ⟨1, 7, 20⟩).2 ≠ demoStore ∧
    (BorrowBook saveBookFails 5 demoStore ⟨1, 7, 20⟩).2.borrowings =
      demoStore.borrowings ++ [⟨2, 1, 7, 5, 20, none, "borrowed"⟩] ∧
    firstBook (BorrowBook saveBookFails 5 demoStore ⟨1, 7, 20⟩).2 1 =
      some ⟨1, "Emma", "i1", 1, true⟩ := by
  refine ⟨rfl, ?_, rfl, rfl⟩
  intro h
  have := congrArg (fun s => s.borrowings.length) h
  revert this
  decide

/-- C8, amended: a successful `BorrowBook` has applied both writes; an error
built by a precondition check, and any error when one of the store calls 1 to
5 fails or when neither the save of the book nor the reload fails, leaves the
store as it was; the only other outcomes are the store error with the
borrowing inserted and the book not saved (call 6 fails) and the store error
with both writes applied (call 7 fails). -/
theorem BorrowBook_write_outcomes (f : Faults) (now : Nat) (s : Store)
    (req : BorrowBookRequest) :
    (∀ row, (BorrowBook f now s req).1 = .ok row →
      ∃ book, firstBook s req.bookID = some book ∧ row = borrowedRow now s req ∧
        (BorrowBook f now s req).2 = borrowedStore now s req book) ∧
    (∀ text, (BorrowBook f now s req).1 = .error (.msg text) →
      (BorrowBook f now s req).2 = s) ∧
    ((f 1 = true ∨ f 2 = true ∨ f 3 = true ∨ f 4 = true ∨ f 5 = true) →
      (BorrowBook f now s req).2 = s) ∧
    (f 6 = false → f 7 = false → ∀ e, (BorrowBook f now s req).1 = .error e →
      (BorrowBook f now s req).2 = s) ∧
    (∀ e, (BorrowBook f now s req).1 = .error e → (BorrowBook f now s req).2 ≠ s →
      e = .store ∧
      ((f 6 = true ∧ (BorrowBook f now s req).2 =
          { s with borrowings := s.borrowings ++ [borrowedRow now s req] }) ∨
       (f 6 = false ∧ f 7 = true ∧ ∃ book, firstBook s req.bookID = some book ∧
          (BorrowBook f now s req).2 = borrowedStore now s req book))) := by
  rcases BorrowBook_outcome f now s req with ⟨e, he⟩ | ⟨hpre, h⟩
  · rw [he]
    refine ⟨?_, ?_, ?_, ?_, ?_⟩
    · intro row h; simp at h
    · intro _ _; rfl
    · intro _; rfl
    · intro _ _ _ _; rfl
    · intro _ _ h; exact absurd rfl h
  · obtain ⟨p1, p2, p3, p4, p5⟩ := hpre
    rcases h with ⟨h6, he⟩ | ⟨h6, h7, book, hb, he⟩ | ⟨h6, h7, book, hb, he⟩
    · rw [he]
      refine ⟨?_, ?_, ?_, ?_, ?_⟩
      · intro row h; simp at h
      · intro text h; simp at h
      · intro h; simp [p1, p2, p3, p4, p5] at h
      · intro h; simp [h6] at h
      · intro e h _
        simp only [Except.error.injEq] at h
        exact ⟨h.symm, Or.inl ⟨h6, rfl⟩⟩
    · rw [he]
      refine ⟨?_, ?_, ?_, ?_, ?_⟩
      · intro row h; simp at h
      · intro text h; simp at h
      · intro h; simp [p1, p2, p3, p4, p5] at h
      · intro _ h; simp [h7] at h
      · intro e h _
        simp only [Except.error.injEq] at h
        exact ⟨h.symm, Or.inr ⟨h6, h7, book, hb, rfl⟩⟩
    · rw [he]
      refine ⟨?_, ?_, ?_, ?_, ?_⟩
      · intro row h
        simp only [Except.ok.injEq] at h
        exact ⟨book, hb, h.symm, rfl⟩
      · intro text h; simp at h
      · intro h; simp [p1, p2, p3, p4, p5] at h
      · intro _ _ e h; simp at h
      · intro e h; simp at h

/-! ## The overdue sweep -/

/-- C9: the sweep at `now`, its one store call not failing, succeeds, leaves
books and borrowers as they were, and maps the borrowing table row by row: a
row with status `borrowed` and `due_date < now` gets status `overdue` and is
otherwise kept, every other row is kept whole; no row changes its return time,
due date, book or borrower. -/
theorem UpdateOverdueStatus_exact (now : Nat) (s : Store) :
    (UpdateOverdueStatus noFaults now s).1 = .ok () ∧
    (UpdateOverdueStatus noFaults now s).2.books = s.books ∧
    (UpdateOverdueStatus noFaults now s).2.borrowers = s.borrowers ∧
    List.Forall₂ (fun b b' =>
        (b.status = "borrowed" ∧ b.dueDate < now → b' = { b with status := "overdue" }) ∧
        (¬ (b.status = "borrowed" ∧ b.dueDate < now) → b' = b) ∧
        b'.returnedAt = b.returnedAt ∧ b'.dueDate = b.dueDate ∧
        b'.bookID = b.bookID ∧ b'.borrowerID = b.borrowerID)
      s.borrowings (UpdateOverdueStatus noFaults now s).2.borrowings := by
  refine ⟨rfl, rfl, rfl, ?_⟩
  simp only [UpdateOverdueStatus, noFaults, Bool.false_eq_true, if_false]
  rw [List.forall₂_map_right_iff, List.forall₂_same]
  intro b _
  by_cases h : b.status = "borrowed" ∧ b.dueDate < now
  · have hl : isLapsed now b = true := by simp [isLapsed, h.1, h.2]
    simp [hl, h]
  · have hl : isLapsed now b = false := by
      simp only [isLapsed, Bool.and_eq_false_iff, beq_eq_false_iff_ne, decide_eq_false_iff_not]
      by_cases hs : b.status = "borrowed"
      · exact Or.inr (fun hd => h ⟨hs, hd⟩)
      · exact Or.inl hs
    simp [hl, h]

/-- C10: sweeping twice at the same instant gives what sweeping once gives;
and a second sweep at a later instant `t'` that finds no `borrowed` borrowing
due before `t'` succeeds and changes nothing. -/
theorem UpdateOverdueStatus_idempotent (t t' : Nat) (s : Store) :
    UpdateOverdueStatus noFaults t (UpdateOverdueStatus noFaults t s).2 =
      (.ok (), (UpdateOverdueStatus noFaults t s).2) ∧
    (t ≤ t' → countBorrowings (UpdateOverdueStatus noFaults t s).2 (isLapsed t') = 0 →
      UpdateOverdueStatus noFaults t' (UpdateOverdueStatus noFaults t s).2 =
        (.ok (), (UpdateOverdueStatus noFaults t s).2)) := by
  have hfst : ∀ u z, (UpdateOverdueStatus noFaults u z).1 = .ok () := fun _ _ => rfl
  have hzero : countBorrowings (UpdateOverdueStatus noFaults t s).2 (isLapsed t) = 0 := by
    unfold countBorrowings
    rw [List.length_eq_zero, List.filter_eq_nil_iff]
    intro b hb hl
    have hs : b.status = "borrowed" := by
      simp only [isLapsed, Bool.and_eq_true, beq_iff_eq] at hl
      exact hl.1
    have := (sweep_borrowed_subset t s b hb hs).2
    rw [this] at hl
    exact Bool.false_ne_true hl
  refine ⟨?_, ?_⟩
  · exact Prod.ext (hfst _ _) (sweep_noop noFaults t _ hzero)
  · intro _ h
    exact Prod.ext (hfst _ _) (sweep_noop noFaults t' _ h)

/-- Witness for C10: in the demo library a sweep at 20 followed by a sweep at
25 changes nothing more. -/
theorem UpdateOverdueStatus_idempotent_witness :
    UpdateOverdueStatus noFaults 25 (UpdateOverdueStatus noFaults 20 demoStore).2 =
      (.ok (), (UpdateOverdueStatus noFaults 20 demoStore).2) :=
  (UpdateOverdueStatus_idempotent 20 25 demoStore).2 (by decide) (by decide)

/-! ## Shapes of the store after one call -/

theorem BorrowBook_store_cases (f : Faults) (now : Nat) (s : Store) (req : BorrowBookRequest) :
    (BorrowBook f now s req).2 = s ∨
    ∃ book, firstBook s req.bookID = some book ∧ book.available = true ∧
      countBorrowings s (isActiveOf req.borrowerID) < 5 ∧
      ((BorrowBook f now s req).2 = insertedStore now s req ∨
       (BorrowBook f now s req).2 = borrowedStore now s req book) := by
  cases h1 : f 1
  swap
  · exact Or.inl (by simp [BorrowBook, h1])
  cases hb : firstBook s req.bookID with
  | none => exact Or.inl (by simp [BorrowBook, h1, hb])
  | some book =>
  cases ha : book.available
  · exact Or.inl (by simp [BorrowBook, h1, hb, ha])
  cases h2 : f 2
  swap
  · exact Or.inl (by simp [BorrowBook, h1, hb, ha, h2])
  cases hr : firstBorrower s req.borrowerID with
  | none => exact Or.inl (by simp [BorrowBook, h1, hb, ha, h2, hr])
  | some borrower =>
  cases h3 : f 3
  swap
  · exact Or.inl (by simp [BorrowBook, h1, hb, ha, h2, hr, h3])
  by_cases ho : countBorrowings s (isOverdueOf req.borrowerID now) = 0
  swap
  · have : 0 < countBorrowings s (isOverdueOf req.borrowerID now) := by omega
    exact Or.inl (by simp [BorrowBook, h1, hb, ha, h2, hr, h3, this])
  cases h4 : f 4
  swap
  · exact Or.inl (by simp [BorrowBook, h1, hb, ha, h2, hr, h3, ho, h4])
  by_cases hl : countBorrowings s (isActiveOf req.borrowerID) < 5
  swap
  · have : 5 ≤ countBorrowings s (isActiveOf req.borrowerID) := by omega
    exact Or.inl (by simp [BorrowBook, h1, hb, ha, h2, hr, h3, ho, h4, this])
  have hl' : ¬ 5 ≤ countBorrowings s (isActiveOf req.borrowerID) := by omega
  cases h5 : f 5
  swap
  · exact Or.inl (by simp [BorrowBook, h1, hb, ha, h2, hr, h3, ho, h4, hl', h5])
  refine Or.inr ⟨book, rfl, ha, hl, ?_⟩
  cases h6 : f 6
  swap
  · refine Or.inl ?_
    simp [BorrowBook, h1, hb, ha, h2, hr, h3, ho, h4, hl', h5, h6, createBorrowing, borrowedRow,
      insertedStore]
  cases h7 : f 7
  swap
  · refine Or.inr ?_
    simp [BorrowBook, h1, hb, ha, h2, hr, h3, ho, h4, hl', h5, h6, h7, createBorrowing,
      borrowedRow, borrowedStore]
  · refine Or.inr ?_
    rw [BorrowBook_success_eq f now s req book borrower h1 h2 h3 h4 h5 h6 h7 hb ha hr ho hl]

theorem ReturnBook_store_cases (f : Faults) (now : Nat) (s : Store) (req : ReturnBookRequest) :
    (ReturnBook f now s req).2 = s ∨
    ∃ b, firstBorrowing s req.borrowingID = some b ∧ b.status = "borrowed" ∧
      ((ReturnBook f now s req).2 = saveBorrowing s (returnedRow now b) ∨
       ∃ book, firstBook s b.bookID = some book ∧
        (ReturnBook f now s req).2 =
          saveBook (saveBorrowing s (returnedRow now b)) { book with available := true }) := by
  cases h1 : f 1
  swap
  · exact Or.inl (by simp [ReturnBook, h1])
  cases hb : firstBorrowing s req.borrowingID with
  | none => exact Or.inl (by simp [ReturnBook, h1, hb])
  | some b =>
  by_cases hs : b.status = "borrowed"
  swap
  · exact Or.inl (by simp [ReturnBook, h1, hb, hs])
  cases h2 : f 2
  swap
  · exact Or.inl (by simp [ReturnBook, h1, hb, hs, h2])
  refine Or.inr ⟨b, rfl, hs, ?_⟩
  have hrow : (if now > b.dueDate then
      ({ b with returnedAt := some now, status := "overdue" } : Borrowing)
      else { b with returnedAt := some now, status := "returned" }) = returnedRow now b := by
    unfold returnedRow
    by_cases hd : now > b.dueDate
    · simp [hd]
    · simp [hd]
  cases h3 : f 3
  swap
  · refine Or.inl ?_
    simp only [ReturnBook, h1, hb, hs, h2, h3]
    simp [hrow]
  cases hk : firstBook s b.bookID with
  | none =>
    refine Or.inl ?_
    simp only [ReturnBook, h1, hb, hs, h2, h3, hk]
    simp [hrow]
  | some book =>
    exact Or.inr ⟨book, rfl, by
      rw [ReturnBook_success_eq f now s req b book h1 h2 h3 hb hs hk]⟩

theorem sweep_store_cases (f : Faults) (now : Nat) (s : Store) :
    (UpdateOverdueStatus f now s).2 = s ∨
    (UpdateOverdueStatus f now s).2 = (UpdateOverdueStatus noFaults now s).2 := by
  cases h1 : f 1
  · exact Or.inr (by simp [UpdateOverdueStatus, h1, noFaults])
  · exact Or.inl (by simp [UpdateOverdueStatus, h1])

theorem step_cases (s : Store) (c : Call) :
    step s c = s ∨
    (∃ now req book, firstBook s req.bookID = some book ∧ book.available = true ∧
      countBorrowings s (isActiveOf req.borrowerID) < 5 ∧
      (step s c = insertedStore now s req ∨ step s c = borrowedStore now s req book)) ∨
    (∃ now id b, firstBorrowing s id = some b ∧ b.status = "borrowed" ∧
      (step s c = saveBorrowing s (returnedRow now b) ∨
       ∃ book, firstBook s b.bookID = some book ∧
        step s c =
          saveBook (saveBorrowing s (returnedRow now b)) { book with available := true })) ∨
    (∃ now, step s c = (UpdateOverdueStatus noFaults now s).2) := by
  obtain ⟨f, now, op⟩ := c
  cases op with
  | borrow req =>
    rcases BorrowBook_store_cases f now s req with h | ⟨book, hb, ha, hl, h⟩
    · exact Or.inl h
    · exact Or.inr (Or.inl ⟨now, req, book, hb, ha, hl, h⟩)
  | giveBack req =>
    rcases ReturnBook_store_cases f now s req with h | ⟨b, hb, hs, h⟩
    · exact Or.inl h
    · exact Or.inr (Or.inr (Or.inl ⟨now, req.borrowingID, b, hb, hs, h⟩))
  | sweep =>
    rcases sweep_store_cases f now s with h | h
    · exact Or.inl h
    · exact Or.inr (Or.inr (Or.inr ⟨now, h⟩))

theorem step_borrowings (s : Store) (c : Call) :
    (step s c).borrowings = s.borrowings ∨
    (∃ now req, countBorrowings s (isActiveOf req.borrowerID) < 5 ∧
      (step s c).borrowings = s.borrowings ++ [borrowedRow now s req]) ∨
    (∃ now id b, firstBorrowing s id = some b ∧ b.status = "borrowed" ∧
      (step s c).borrowings =
        s.borrowings.map (fun x => if x.id == b.id then returnedRow now b else x)) ∨
    (∃ now, (step s c).borrowings =
      s.borrowings.map (fun b => if isLapsed now b then { b with status := "overdue" } else b)) := by
  rcases step_cases s c with h | ⟨now, req, book, _, _, hl, h | h⟩ |
    ⟨now, id, b, hb, hs, h | ⟨book, _, h⟩⟩ | ⟨now, h⟩
  · exact Or.inl (by rw [h])
  · exact Or.inr (Or.inl ⟨now, req, hl, by rw [h]; rfl⟩)
  · exact Or.inr (Or.inl ⟨now, req, hl, by rw [h]; rfl⟩)
  · exact Or.inr (Or.inr (Or.inl ⟨now, id, b, hb, hs, by rw [h]; rfl⟩))
  · exact Or.inr (Or.inr (Or.inl ⟨now, id, b, hb, hs, by rw [h]; rfl⟩))
  · exact Or.inr (Or.inr (Or.inr ⟨now, by rw [h]; rfl⟩))

theorem run_invariant (P : Store → Prop) (hstep : ∀ s c, P s → P (step s c)) :
    ∀ (cs : List Call) (s : Store), P s → P (run s cs) := by
  intro cs
  induction cs with
  | nil => intro s h; exact h
  | cons c cs ih =>
    intro s h
    exact ih (step s c) (hstep s c h)

/-! ## Invariants of single calls -/

theorem ValidStatuses_step (s : Store) (c : Call) (h : ValidStatuses s) :
    ValidStatuses (step s c) := by
  intro x hx
  rcases step_borrowings s c with e | ⟨now, req, _, e⟩ | ⟨now, id, b, _, _, e⟩ | ⟨now, e⟩
  · rw [e] at hx
    exact h x hx
  · rw [e, List.mem_append, List.mem_singleton] at hx
    rcases hx with hx | hx
    · exact h x hx
    · subst hx
      exact Or.inl rfl
  · rw [e, List.mem_map] at hx
    obtain ⟨y, hy, rfl⟩ := hx
    by_cases hid : y.id = b.id
    · simp only [hid, beq_self_eq_true, if_true]
      unfold returnedRow
      by_cases hd : now > b.dueDate
      · simp [hd]
      · simp [hd]
    · have hid' : (y.id == b.id) = false := by simp [hid]
      simp only [hid', Bool.false_eq_true, if_false]
      exact h y hy
  · rw [e, List.mem_map] at hx
    obtain ⟨y, hy, rfl⟩ := hx
    cases hl : isLapsed now y
    · simp only [Bool.false_eq_true, if_false]
      exact h y hy
    · simp

theorem ReturnedNotBorrowed_step (s : Store) (c : Call) (h : ReturnedNotBorrowed s) :
    ReturnedNotBorrowed (step s c) := by
  intro x hx
  rcases step_borrowings s c with e | ⟨now, req, _, e⟩ | ⟨now, id, b, _, _, e⟩ | ⟨now, e⟩
  · rw [e] at hx
    exact h x hx
  · rw [e, List.mem_append, List.mem_singleton] at hx
    rcases hx with hx | hx
    · exact h x hx
    · subst hx
      intro hr
      exact absurd rfl hr
  · rw [e, List.mem_map] at hx
    obtain ⟨y, hy, rfl⟩ := hx
    by_cases hid : y.id = b.id
    · simp only [hid, beq_self_eq_true, if_true]
      intro _
      exact returnedRow_status_ne now b
    · have hid' : (y.id == b.id) = false := by simp [hid]
      simp only [hid', Bool.false_eq_true, if_false]
      exact h y hy
  · rw [e, List.mem_map] at hx
    obtain ⟨y, hy, rfl⟩ := hx
    cases hl : isLapsed now y
    · simp only [Bool.false_eq_true, if_false]
      exact h y hy
    · simp

theorem length_filter_map_le {α : Type} (p : α → Bool) (g : α → α)
    (hg : ∀ x, p (g x) = true → p x = true) (l : List α) :
    ((l.map g).filter p).length ≤ (l.filter p).length := by
  induction l with
  | nil => simp
  | cons a l ih =>
    simp only [List.map_cons, List.filter_cons]
    cases hga : p (g a)
    · cases hpa : p a
      · simpa using ih
      · simp only [Bool.false_eq_true, if_false, if_true, List.length_cons]
        omega
    · have hpa := hg a hga
      simp only [hpa, if_true, List.length_cons]
      omega

theorem AtMostFive_step (s : Store) (c : Call) (h : AtMostFive s) :
    AtMostFive (step s c) := by
  intro x
  have hx := h x
  unfold countBorrowings at hx ⊢
  rcases step_borrowings s c with e | ⟨now, req, hl, e⟩ | ⟨now, id, b, _, _, e⟩ | ⟨now, e⟩
  · rw [e]
    exact hx
  · rw [e, List.filter_append, List.length_append]
    unfold countBorrowings at hl
    cases hp : isActiveOf x (borrowedRow now s req)
    · simp [List.filter_cons, hp]
      exact hx
    · have hxr : req.borrowerID = x := by
        simp only [isActiveOf, borrowedRow, Bool.and_eq_true, beq_iff_eq] at hp
        exact hp.1
      subst hxr
      simp [List.filter_cons, hp]
      omega
  · rw [e]
    refine Nat.le_trans (length_filter_map_le (isActiveOf x) _ ?_ s.borrowings) hx
    intro y hy
    by_cases hid : y.id = b.id
    · simp only [hid, beq_self_eq_true, if_true, isActiveOf, Bool.and_eq_true, beq_iff_eq] at hy
      exact absurd hy.2 (returnedRow_status_ne now b)
    · have hid' : (y.id == b.id) = false := by simp [hid]
      simpa [hid'] using hy
  · rw [e]
    refine Nat.le_trans (length_filter_map_le (isActiveOf x) _ ?_ s.borrowings) hx
    intro y hy
    cases hl : isLapsed now y
    · simpa [hl] using hy
    · simp [hl, isActiveOf] at hy

theorem find?_map_key {α : Type} (key : α → Nat) (g : α → α) (hg : ∀ x, key (g x) = key x)
    (l : List α) (k : Nat) :
    (l.map g).find? (fun x => key x == k) = (l.find? (fun x => key x == k)).map g := by
  induction l with
  | nil => rfl
  | cons a l ih =>
    rw [List.map_cons, List.find?_cons, List.find?_cons, ih, hg a]
    cases hk : (key a == k)
    · rfl
    · rfl

theorem frozen_step (s : Store) (c : Call) (id : Nat) (b : Borrowing)
    (hb : firstBorrowing s id = some b) (hs : b.status ≠ "borrowed") :
    firstBorrowing (step s c) id = some b := by
  obtain ⟨_, hbid⟩ := firstBorrowing_mem_id s id b hb
  unfold firstBorrowing at hb ⊢
  rcases step_borrowings s c with e | ⟨now, req, _, e⟩ | ⟨now, id0, b0, hb0, hs0, e⟩ | ⟨now, e⟩
  · rw [e]
    exact hb
  · rw [e, List.find?_append, hb]
    rfl
  · rw [e]
    have hne : ¬ b.id = b0.id := by
      intro h
      obtain ⟨_, hb0id⟩ := firstBorrowing_mem_id s id0 b0 hb0
      have hidd : id0 = id := by rw [← hb0id, ← h, hbid]
      subst hidd
      unfold firstBorrowing at hb0
      rw [hb] at hb0
      have : b = b0 := Option.some.inj hb0
      subst this
      exact hs hs0
    have h := find?_map_upd Borrowing.id (returnedRow now b0) s.borrowings id
    have hrid : (returnedRow now b0).id = b0.id := rfl
    rw [hrid] at h
    rw [h, hb]
    simp [hne]
  · rw [e]
    have h := find?_map_key Borrowing.id
      (fun b => if isLapsed now b then { b with status := "overdue" } else b)
      (by intro x; cases hx : isLapsed now x <;> simp [hx]) s.borrowings id
    rw [h, hb]
    have hl : isLapsed now b = false := by
      simp only [isLapsed, Bool.and_eq_false_iff, beq_eq_false_iff_ne]
      exact Or.inl hs
    simp [hl]

theorem frozen_run (id : Nat) (b : Borrowing) (hs : b.status ≠ "borrowed") :
    ∀ (cs : List Call) (s : Store), firstBorrowing s id = some b →
      firstBorrowing (run s cs) id = some b :=
  run_invariant (fun s => firstBorrowing s id = some b)
    (fun s c h => frozen_step s c id b h hs)

theorem ReturnBook_frozen_not_ok (f : Faults) (now : Nat) (s : Store) (id : Nat)
    (b : Borrowing) (hb : firstBorrowing s id = some b) (hs : b.status ≠ "borrowed")
    (row : Borrowing) : (ReturnBook f now s ⟨id⟩).1 ≠ .ok row := by
  intro h
  obtain ⟨b', _, hb', hs', _, _⟩ := ReturnBook_ok_inv f now s ⟨id⟩ row h
  rw [hb] at hb'
  have : b = b' := Option.some.inj hb'
  subst this
  exact hs hs'

theorem stuck_step (k : Nat) (s : Store) (c : Call)
    (h1 : ∀ x ∈ s.borrowings, x.bookID = k → x.status ≠ "borrowed")
    (h2 : ∀ r ∈ s.books, r.id = k → r.available = false) :
    (∀ x ∈ (step s c).borrowings, x.bookID = k → x.status ≠ "borrowed") ∧
    (∀ r ∈ (step s c).books, r.id = k → r.available = false) := by
  have hins : ∀ now req book, firstBook s req.bookID = some book → book.available = true →
      ∀ x ∈ s.borrowings ++ [borrowedRow now s req], x.bookID = k → x.status ≠ "borrowed" := by
    intro now req book hb ha x hx hxk
    obtain ⟨hbm, hbid⟩ := firstBook_mem_id s req.bookID book hb
    rw [List.mem_append, List.mem_singleton] at hx
    rcases hx with hx | hx
    · exact h1 x hx hxk
    · subst hx
      exfalso
      have hk : book.id = k := by rw [hbid]; exact hxk
      have := h2 book hbm hk
      rw [ha] at this
      exact Bool.noConfusion this
  have hret : ∀ now b, ∀ x ∈ s.borrowings.map
      (fun x => if x.id == b.id then returnedRow now b else x),
      x.bookID = k → x.status ≠ "borrowed" := by
    intro now b x hx hxk
    rw [List.mem_map] at hx
    obtain ⟨y, hy, rfl⟩ := hx
    by_cases hid : y.id = b.id
    · simp only [hid, beq_self_eq_true, if_true]
      exact returnedRow_status_ne now b
    · have hid' : (y.id == b.id) = false := by simp [hid]
      simp only [hid', Bool.false_eq_true, if_false] at hxk ⊢
      exact h1 y hy hxk
  rcases step_cases s c with h | ⟨now, req, book, hb, ha, _, h | h⟩ |
    ⟨now, id, b, hb, hs, h | ⟨book, hk, h⟩⟩ | ⟨now, h⟩
  · rw [h]
    exact ⟨h1, h2⟩
  · rw [h]
    exact ⟨hins now req book hb ha, h2⟩
  · rw [h]
    refine ⟨hins now req book hb ha, ?_⟩
    intro r hr hrk
    simp only [borrowedStore, saveBook, List.mem_map] at hr
    obtain ⟨y, hy, rfl⟩ := hr
    by_cases hid : y.id = book.id
    · simp [hid]
    · have hid' : (y.id == book.id) = false := by simp [hid]
      simp only [hid', Bool.false_eq_true, if_false] at hrk ⊢
      exact h2 y hy hrk
  · rw [h]
    exact ⟨hret now b, h2⟩
  · rw [h]
    refine ⟨hret now b, ?_⟩
    obtain ⟨hbm, _⟩ := firstBorrowing_mem_id s id b hb
    obtain ⟨_, hkid⟩ := firstBook_mem_id s b.bookID book hk
    have hbk : ¬ b.bookID = k := fun hbk => h1 b hbm hbk hs
    intro r hr hrk
    simp only [saveBook, saveBorrowing, List.mem_map] at hr
    obtain ⟨y, hy, rfl⟩ := hr
    by_cases hid : y.id = book.id
    · simp only [hid, beq_self_eq_true, if_true] at hrk
      exact absurd (hkid.symm.trans hrk) hbk
    · have hid' : (y.id == book.id) = false := by simp [hid]
      simp only [hid', Bool.false_eq_true, if_false] at hrk ⊢
      exact h2 y hy hrk
  · rw [h]
    refine ⟨?_, h2⟩
    intro x hx hxk hst
    obtain ⟨hxm, _⟩ := sweep_borrowed_subset now s x hx hst
    exact h1 x hxm hxk hst

theorem stuck_run (k : Nat) (cs : List Call) (s : Store)
    (h1 : ∀ x ∈ s.borrowings, x.bookID = k → x.status ≠ "borrowed")
    (h2 : ∀ r ∈ s.books, r.id = k → r.available = false) :
    (∀ x ∈ (run s cs).borrowings, x.bookID = k → x.status ≠ "borrowed") ∧
    (∀ r ∈ (run s cs).books, r.id = k → r.available = false) :=
  run_invariant
    (fun s => (∀ x ∈ s.borrowings, x.bookID = k → x.status ≠ "borrowed") ∧
      (∀ r ∈ s.books, r.id = k → r.available = false))
    (fun s c h => stuck_step k s c h.1 h.2) cs s ⟨h1, h2⟩

theorem sweep_first (now : Nat) (s : Store) (id : Nat) (b : Borrowing)
    (hb : firstBorrowing s id = some b) :
    firstBorrowing (UpdateOverdueStatus noFaults now s).2 id =
      some (if isLapsed now b then { b with status := "overdue" } else b) := by
  have h := find?_map_key Borrowing.id
    (fun b => if isLapsed now b then { b with status := "overdue" } else b)
    (by intro x; cases hx : isLapsed now x <;> simp [hx]) s.borrowings id
  simp only [firstBorrowing, UpdateOverdueStatus, noFaults, Bool.false_eq_true, if_false]
  simp only [firstBorrowing] at hb
  rw [h, hb]
  rfl

/-! ## Life cycle of a borrowing -/

/-- C11: in a table with unique ids, `BorrowBook` leaves every old row as it
is and adds only rows with status `borrowed`; `ReturnBook` keeps every status
except that of the `borrowed` row it returns, which becomes `returned` when
`now` is not after the due date and `overdue` when it is; the sweep keeps every
status except that of `borrowed` rows due before `now`, which become
`overdue`.  So a status other than `borrowed` is never changed, and a table
whose statuses are all `borrowed`, `returned` or `overdue` stays so under any
sequence of calls. -/
theorem status_transitions (f : Faults) (now : Nat) (s : Store)
    (hnd : (s.borrowings.map Borrowing.id).Nodup) :
    (∀ req, ∃ extra, (BorrowBook f now s req).2.borrowings = s.borrowings ++ extra ∧
      ∀ x ∈ extra, x.status = "borrowed") ∧
    (∀ req, List.Forall₂ (fun b b' =>
        b'.status = b.status ∨
        (b.status = "borrowed" ∧ b.id = req.borrowingID ∧
          ((now ≤ b.dueDate ∧ b'.status = "returned") ∨
           (b.dueDate < now ∧ b'.status = "overdue"))))
      s.borrowings (ReturnBook f now s req).2.borrowings) ∧
    List.Forall₂ (fun b b' =>
        b'.status = b.status ∨
        (b.status = "borrowed" ∧ b.dueDate < now ∧ b'.status = "overdue"))
      s.borrowings (UpdateOverdueStatus f now s).2.borrowings ∧
    (∀ cs, ValidStatuses s → ValidStatuses (run s cs)) := by
  refine ⟨?_, ?_, ?_, ?_⟩
  · intro req
    rcases BorrowBook_store_cases f now s req with h | ⟨book, _, _, _, h | h⟩
    · exact ⟨[], by rw [h]; simp, by simp⟩
    · refine ⟨[borrowedRow now s req], by rw [h]; rfl, ?_⟩
      intro x hx
      rw [List.mem_singleton] at hx
      subst hx
      rfl
    · refine ⟨[borrowedRow now s req], by rw [h]; rfl, ?_⟩
      intro x hx
      rw [List.mem_singleton] at hx
      subst hx
      rfl
  · intro req
    have hmap : ∀ b, firstBorrowing s req.borrowingID = some b → b.status = "borrowed" →
        List.Forall₂ (fun b b' =>
          b'.status = b.status ∨
          (b.status = "borrowed" ∧ b.id = req.borrowingID ∧
            ((now ≤ b.dueDate ∧ b'.status = "returned") ∨
             (b.dueDate < now ∧ b'.status = "overdue"))))
        s.borrowings
        (s.borrowings.map (fun x => if x.id == b.id then returnedRow now b else x)) := by
      intro b hb hs
      obtain ⟨hbm, hbid⟩ := firstBorrowing_mem_id s req.borrowingID b hb
      rw [List.forall₂_map_right_iff, List.forall₂_same]
      intro x hx
      by_cases hid : x.id = b.id
      · have hxb : x = b := List.inj_on_of_nodup_map hnd hx hbm hid
        subst hxb
        simp only [beq_self_eq_true, if_true]
        refine Or.inr ⟨hs, hbid, ?_⟩
        unfold returnedRow
        by_cases hd : now > x.dueDate
        · exact Or.inr ⟨hd, by simp [hd]⟩
        · exact Or.inl ⟨by omega, by simp [hd]⟩
      · have hid' : (x.id == b.id) = false := by simp [hid]
        simp only [hid', Bool.false_eq_true, if_false]
        exact Or.inl trivial
    rcases ReturnBook_store_cases f now s req with h | ⟨b, hb, hs, h | ⟨book, _, h⟩⟩
    · rw [h, List.forall₂_same]
      intro x _
      exact Or.inl rfl
    · rw [h]
      exact hmap b hb hs
    · rw [h]
      exact hmap b hb hs
  · rcases sweep_store_cases f now s with h | h
    · rw [h, List.forall₂_same]
      intro x _
      exact Or.inl rfl
    · rw [h]
      simp only [UpdateOverdueStatus, noFaults, Bool.false_eq_true, if_false]
      rw [List.forall₂_map_right_iff, List.forall₂_same]
      intro x _
      cases hl : isLapsed now x
      · simp only [Bool.false_eq_true, if_false]
        exact Or.inl trivial
      · simp only [if_true]
        simp only [isLapsed, Bool.and_eq_true, beq_iff_eq, decide_eq_true_eq] at hl
        exact Or.inr ⟨hl.1, hl.2, trivial⟩
  · intro cs
    exact run_invariant ValidStatuses ValidStatuses_step cs s

/-- Witness for C11: the statuses of the demo library stay among the three
through five loans, a sweep and a sixth loan. -/
theorem status_transitions_witness :
    ValidStatuses demoStore ∧ ValidStatuses (run demoStore lapseAndBorrowAgain) :=
  have h : ValidStatuses demoStore := fun b hb => by
    simp only [demoStore, List.mem_singleton] at hb
    subst hb
    exact Or.inl rfl
  ⟨h, (status_transitions noFaults 0 demoStore (by decide)).2.2.2 lapseAndBorrowAgain h⟩

/-- C12: the row a successful `BorrowBook` creates has no return time.  A
successful `ReturnBook` at `now` stores the return time `now`; after it, under
any sequence of calls, the stored row stays exactly as that call left it and
no further `ReturnBook` of that borrowing succeeds.  More generally a stored
row whose status is not `borrowed` is never modified, and the property that
every row with a return time has a status other than `borrowed` is kept by
every sequence of calls. -/
theorem returnedAt_set_once (f : Faults) (now : Nat) (s : Store) :
    (∀ req row, (BorrowBook f now s req).1 = .ok row → row.returnedAt = none) ∧
    (∀ req row, (ReturnBook f now s req).1 = .ok row →
      row.returnedAt = some now ∧
      ∀ cs, firstBorrowing (run (ReturnBook f now s req).2 cs) req.borrowingID = some row ∧
        ∀ f' now' row',
          (ReturnBook f' now' (run (ReturnBook f now s req).2 cs) req).1 ≠ .ok row') ∧
    (∀ id b, firstBorrowing s id = some b → b.status ≠ "borrowed" →
      ∀ cs, firstBorrowing (run s cs) id = some b) ∧
    (∀ cs, ReturnedNotBorrowed s → ReturnedNotBorrowed (run s cs)) := by
  refine ⟨?_, ?_, ?_, ?_⟩
  · intro req row hok
    obtain ⟨_, _, _, _, _, _, heq⟩ := BorrowBook_ok_inv f now s req row hok
    rw [heq] at hok
    simp only [Except.ok.injEq] at hok
    rw [← hok]
    rfl
  · intro req row hok
    obtain ⟨b, book, hb, _, _, heq⟩ := ReturnBook_ok_inv f now s req row hok
    have hrow : row = returnedRow now b := by
      rw [heq] at hok
      simp only [Except.ok.injEq] at hok
      exact hok.symm
    have hst : row.status ≠ "borrowed" := by
      rw [hrow]
      exact returnedRow_status_ne now b
    have hfirst : firstBorrowing (ReturnBook f now s req).2 req.borrowingID = some row := by
      rw [heq, hrow]
      have h := find?_map_upd Borrowing.id (returnedRow now b) s.borrowings req.borrowingID
      simp only [firstBorrowing, saveBook, saveBorrowing]
      rw [h]
      simp only [firstBorrowing] at hb
      rw [hb]
      simp [returnedRow]
    refine ⟨by rw [hrow]; rfl, ?_⟩
    intro cs
    have hkeep := frozen_run req.borrowingID row hst cs _ hfirst
    exact ⟨hkeep, fun f' now' row' =>
      ReturnBook_frozen_not_ok f' now' _ req.borrowingID row hkeep hst row'⟩
  · intro id b hb hs cs
    exact frozen_run id b hs cs s hb
  · intro cs
    exact run_invariant ReturnedNotBorrowed ReturnedNotBorrowed_step cs s

/-- Witness for C12: the borrowing of the demo library returned at 10 keeps
its return time through five loans, a sweep and a sixth loan. -/
theorem returnedAt_set_once_witness :
    firstBorrowing (run (ReturnBook noFaults 10 demoStore ⟨1⟩).2 lapseAndBorrowAgain) 1 =
      some ⟨1, 9, 8, 0, 7, some 10, "overdue"⟩ :=
  (((returnedAt_set_once noFaults 10 demoStore).2.1 ⟨1⟩ ⟨1, 9, 8, 0, 7, some 10, "overdue"⟩
    rfl).2 lapseAndBorrowAgain).1

/-- C13: if no borrower has more than five `borrowed` borrowings, the same
holds after any sequence of `BorrowBook`, `ReturnBook` and
`UpdateOverdueStatus` calls, whatever their store calls do. -/
theorem AtMostFive_preserved (s : Store) (cs : List Call) (h : AtMostFive s) :
    AtMostFive (run s cs) :=
  run_invariant AtMostFive AtMostFive_step cs s h

/-- Witness for C13: the shelf library, with no borrowing, and what five loans,
a sweep and a sixth loan make of it. -/
theorem AtMostFive_preserved_witness :
    AtMostFive shelfStore ∧ AtMostFive (run shelfStore lapseAndBorrowAgain) :=
  have h : AtMostFive shelfStore := fun x => by simp [countBorrowings, shelfStore]
  ⟨h, AtMostFive_preserved shelfStore lapseAndBorrowAgain h⟩

/-! ## After the sweep -/

/-- C17: let `b` be the stored `borrowed` borrowing with its id, not returned,
due before `t`, the only `borrowed` borrowing of its book, that book being
unavailable.  After the sweep at `t` and then any sequence of calls, the stored
row is `b` with status `overdue` and still no return time, the book is still
unavailable, and `ReturnBook` of it whose read does not fail answers `book is
not currently borrowed` and changes nothing. -/
theorem swept_borrowing_stuck (t : Nat) (s : Store) (b : Borrowing) (cs : List Call)
    (hb : firstBorrowing s b.id = some b) (hl : isLapsed t b = true)
    (hheld : b.returnedAt = none)
    (honly : ∀ x ∈ s.borrowings, x.bookID = b.bookID → x.status = "borrowed" → x = b)
    (hbook : ∀ k ∈ s.books, k.id = b.bookID → k.available = false) :
    firstBorrowing (run (UpdateOverdueStatus noFaults t s).2 cs) b.id =
      some { b with status := "overdue" } ∧
    (∀ row, firstBorrowing (run (UpdateOverdueStatus noFaults t s).2 cs) b.id = some row →
      row.returnedAt = none) ∧
    (∀ k ∈ (run (UpdateOverdueStatus noFaults t s).2 cs).books,
      k.id = b.bookID → k.available = false) ∧
    (∀ f now, f 1 = false →
      ReturnBook f now (run (UpdateOverdueStatus noFaults t s).2 cs) ⟨b.id⟩ =
        (.error (.msg "book is not currently borrowed"),
          run (UpdateOverdueStatus noFaults t s).2 cs)) := by
  have hst : ({ b with status := "overdue" } : Borrowing).status ≠ "borrowed" := by
    show ("overdue" : String) ≠ "borrowed"
    decide
  have hswept : firstBorrowing (UpdateOverdueStatus noFaults t s).2 b.id =
      some { b with status := "overdue" } := by
    rw [sweep_first t s b.id b hb, hl]
    rfl
  have hfirst := frozen_run b.id { b with status := "overdue" } hst cs _ hswept
  have hstuck := stuck_run b.bookID cs (UpdateOverdueStatus noFaults t s).2
    (by
      intro x hx hxk hxs
      obtain ⟨hxm, hxl⟩ := sweep_borrowed_subset t s x hx hxs
      have := honly x hxm hxk hxs
      subst this
      rw [hl] at hxl
      exact Bool.noConfusion hxl)
    (by
      intro k hk hkid
      exact hbook k (by simpa [UpdateOverdueStatus, noFaults] using hk) hkid)
  refine ⟨hfirst, ?_, hstuck.2, ?_⟩
  · intro row hrow
    rw [hfirst] at hrow
    rw [← Option.some.inj hrow]
    exact hheld
  · intro f now hf
    simp [ReturnBook, hf, hfirst]

/-- Witness for C17: the borrowing of the demo library, swept at 20, is still
`overdue` and unreturned after five loans, a sweep and a sixth loan, and its
book 9 is still unavailable. -/
theorem swept_borrowing_stuck_witness :
    firstBorrowing (run (UpdateOverdueStatus noFaults 20 demoStore).2 lapseAndBorrowAgain) 1 =
      some ⟨1, 9, 8, 0, 7, none, "overdue"⟩ ∧
    (∀ k ∈ (run (UpdateOverdueStatus noFaults 20 demoStore).2 lapseAndBorrowAgain).books,
      k.id = 9 → k.available = false) :=
  have h := swept_borrowing_stuck 20 demoStore ⟨1, 9, 8, 0, 7, none, "borrowed"⟩
    lapseAndBorrowAgain rfl rfl rfl (by decide) (by decide)
  ⟨h.1, h.2.2.1⟩

/-- C19: from the shelf library, whose borrowing table is empty, borrower 7
borrows books 1 to 5 at instant 0, due at 7; the sweep runs at 20; borrower 7
then borrows book 6 at 21.  Each of these calls succeeds, and at the end
borrower 7 has six borrowings without a return time, only one of which has
status `borrowed`. -/
theorem limit_counts_only_borrowed :
    shelfStore.borrowings = [] ∧
    (∀ c ∈ lapseAndBorrowAgain, c.faults = noFaults) ∧
    (BorrowBook noFaults 21
      (run shelfStore (lapseAndBorrowAgain.take 6)) ⟨6, 7, 30⟩).1 =
        .ok ⟨6, 6, 7, 21, 30, none, "borrowed"⟩ ∧
    ((run shelfStore lapseAndBorrowAgain).borrowings.filter
      (fun b => b.borrowerID == 7 && b.returnedAt.isNone)).length = 6 ∧
    countBorrowings (run shelfStore lapseAndBorrowAgain) (isActiveOf 7) = 1 := by
  refine ⟨rfl, ?_, rfl, rfl, rfl⟩
  intro c hc
  simp only [lapseAndBorrowAgain, List.mem_cons, List.mem_singleton, List.mem_nil_iff,
    or_false] at hc
  rcases hc with h | h | h | h | h | h | h <;> subst h <;> rfl

/-! ## Frame conditions -/

/-- C20: in a store whose book ids and borrowing ids are unique, a successful
`BorrowBook` leaves the borrowers and every old borrowing as they are, appends
the returned row, and changes at most the `available` column of the requested
book; a successful `ReturnBook` leaves the borrowers as they are, changes at
most the status and return time of the borrowing returned and at most the
`available` column of that borrowing's book.  Rows correspond position by
position, so no borrowing is removed. -/
theorem frame_effects (f : Faults) (now : Nat) (s : Store)
    (hbk : (s.books.map Book.id).Nodup) (hbr : (s.borrowings.map Borrowing.id).Nodup) :
    (∀ req row, (BorrowBook f now s req).1 = .ok row →
      (BorrowBook f now s req).2.borrowers = s.borrowers ∧
      (BorrowBook f now s req).2.borrowings = s.borrowings ++ [row] ∧
      List.Forall₂ (fun k k' =>
          (k.id ≠ req.bookID → k' = k) ∧ k' = { k with available := k'.available })
        s.books (BorrowBook f now s req).2.books) ∧
    (∀ req row, (ReturnBook f now s req).1 = .ok row →
      (ReturnBook f now s req).2.borrowers = s.borrowers ∧
      List.Forall₂ (fun b b' =>
          (b.id ≠ req.borrowingID → b' = b) ∧
          b' = { b with status := b'.status, returnedAt := b'.returnedAt })
        s.borrowings (ReturnBook f now s req).2.borrowings ∧
      List.Forall₂ (fun k k' =>
          (k.id ≠ row.bookID → k' = k) ∧ k' = { k with available := k'.available })
        s.books (ReturnBook f now s req).2.books) := by
  have hbooks : ∀ (book : Book) (v : Bool) (id : Nat), book ∈ s.books → book.id = id →
      List.Forall₂ (fun k k' =>
          (k.id ≠ id → k' = k) ∧ k' = { k with available := k'.available })
        s.books
        (s.books.map (fun x => if x.id == book.id then { book with available := v } else x)) := by
    intro book v id hbm hid
    rw [List.forall₂_map_right_iff, List.forall₂_same]
    intro k hk
    by_cases hkb : k.id = book.id
    · have : k = book := List.inj_on_of_nodup_map hbk hk hbm hkb
      subst this
      simp only [beq_self_eq_true, if_true, and_true]
      intro hne
      exact absurd hid hne
    · have hkb' : (k.id == book.id) = false := by simp [hkb]
      simp only [hkb', Bool.false_eq_true, if_false]
      refine ⟨fun _ => ?_, ?_⟩ <;> first | rfl | trivial
  refine ⟨?_, ?_⟩
  · intro req row hok
    obtain ⟨book, hb, _, _, _, _, heq⟩ := BorrowBook_ok_inv f now s req row hok
    obtain ⟨hbm, hbid⟩ := firstBook_mem_id s req.bookID book hb
    have hrow : row = borrowedRow now s req := by
      rw [heq] at hok
      simp only [Except.ok.injEq] at hok
      exact hok.symm
    rw [heq, hrow]
    exact ⟨rfl, rfl, hbooks book false req.bookID hbm hbid⟩
  · intro req row hok
    obtain ⟨b, book, hb, _, hk, heq⟩ := ReturnBook_ok_inv f now s req row hok
    obtain ⟨hbm, hbid⟩ := firstBorrowing_mem_id s req.borrowingID b hb
    obtain ⟨hkm, hkid⟩ := firstBook_mem_id s b.bookID book hk
    have hrow : row = returnedRow now b := by
      rw [heq] at hok
      simp only [Except.ok.injEq] at hok
      exact hok.symm
    rw [heq, hrow]
    refine ⟨rfl, ?_, hbooks book true b.bookID hkm hkid⟩
    simp only [saveBook, saveBorrowing]
    rw [List.forall₂_map_right_iff, List.forall₂_same]
    intro x hx
    by_cases hxb : x.id = b.id
    · have : x = b := List.inj_on_of_nodup_map hbr hx hbm hxb
      subst this
      have hrid : ((returnedRow now x).id == (returnedRow now x).id) = true := by simp
      have hxid : (x.id == (returnedRow now x).id) = true := by
        show (x.id == x.id) = true
        simp
      simp only [hxid, if_true]
      refine ⟨fun hne => absurd hbid hne, rfl⟩
    · have hxb' : (x.id == (returnedRow now b).id) = false := by
        show (x.id == b.id) = false
        simp [hxb]
      simp only [hxb', Bool.false_eq_true, if_false]
      refine ⟨fun _ => ?_, ?_⟩ <;> first | rfl | trivial

/-- Witness for C20: in the demo library borrower 7 borrows book 1; the
borrowers are untouched and the new row is appended to the old table. -/
theorem frame_effects_witness :
    (BorrowBook noFaults 5 demoStore ⟨1, 7, 20⟩).2.borrowers = demoStore.borrowers ∧
    (BorrowBook noFaults 5 demoStore ⟨1, 7, 20⟩).2.borrowings =
      demoStore.borrowings ++ [⟨2, 1, 7, 5, 20, none, "borrowed"⟩] :=
  have h := (frame_effects noFaults 5 demoStore (by decide) (by decide)).1 ⟨1, 7, 20⟩
    ⟨2, 1, 7, 5, 20, none, "borrowed"⟩ rfl
  ⟨h.1, h.2.1⟩

/-! ## Pagination arithmetic -/

theorem wrap64_of_range (x : Int) (h1 : -2 ^ 63 ≤ x) (h2 : x < 2 ^ 63) : wrap64 x = x := by
  unfold wrap64
  omega

theorem wrap64_sub_one (x : Int) : wrap64 (wrap64 x - 1) = wrap64 (x - 1) := by
  unfold wrap64
  omega

theorem ediv_eq_ceil (total limit : Int) (hl : 1 ≤ limit) :
    (total + limit - 1) / limit = ⌈(total : ℚ) / (limit : ℚ)⌉ := by
  symm
  rw [Int.ceil_eq_iff]
  have hlq : (0 : ℚ) < (limit : ℚ) := by exact_mod_cast (by omega : (0 : Int) < limit)
  have hmod := Int.emod_add_ediv (total + limit - 1) limit
  have hnn := Int.emod_nonneg (total + limit - 1) (by omega : limit ≠ 0)
  have hlt := Int.emod_lt_of_pos (total + limit - 1) (by omega : (0 : Int) < limit)
  have h1 : total ≤ limit * ((total + limit - 1) / limit) := by linarith
  have h2 : limit * ((total + limit - 1) / limit) - limit < total := by linarith
  constructor
  · rw [lt_div_iff₀ hlq]
    have : (((limit * ((total + limit - 1) / limit) - limit : Int)) : ℚ) < (total : ℚ) := by
      exact_mod_cast h2
    push_cast at this ⊢
    linarith
  · rw [div_le_iff₀ hlq]
    have : ((total : Int) : ℚ) ≤ ((limit * ((total + limit - 1) / limit) : Int) : ℚ) := by
      exact_mod_cast h1
    push_cast at this ⊢
    linarith

theorem totalPages_eq_ediv (total limit : Int) (ht : 0 ≤ total) (hl : 1 ≤ limit)
    (hb : total + limit ≤ 2 ^ 63) : totalPages total limit = (total + limit - 1) / limit := by
  unfold totalPages
  rw [wrap64_sub_one, wrap64_of_range (total + limit - 1) (by omega) (by omega),
    Int.tdiv_eq_ediv (by omega) (by omega)]
  have h0 : 0 ≤ (total + limit - 1) / limit := Int.ediv_nonneg (by omega) (by omega)
  have h1 : (total + limit - 1) / limit ≤ total + limit - 1 := Int.ediv_le_self _ (by omega)
  exact wrap64_of_range _ (by omega) (by omega)

/-- Above the bound of row counts the sum wraps: for total `2^63 - 1`, which
no count over a table returns, and limit 2 the handlers' expression is
`-2^62`, not the ceiling of the quotient. -/
theorem totalPages_overflow :
    (0 : Int) ≤ 2 ^ 63 - 1 ∧ (2 ^ 63 - 1 : Int) < 2 ^ 63 ∧
    totalPages (2 ^ 63 - 1) 2 = -(2 ^ 62) ∧
    totalPages (2 ^ 63 - 1) 2 ≠ ⌈(((2 ^ 63 - 1 : Int)) : ℚ) / ((2 : Int) : ℚ)⌉ := by
  have hv : totalPages (2 ^ 63 - 1) 2 = -(2 ^ 62) := by decide
  refine ⟨by decide, by decide, hv, ?_⟩
  rw [hv]
  intro h
  have hnn : (0 : Int) ≤ ⌈(((2 ^ 63 - 1 : Int)) : ℚ) / ((2 : Int) : ℚ)⌉ :=
    Int.ceil_nonneg (by norm_num)
  rw [← h] at hnn
  revert hnn
  decide

/-- C14: for every total a listing returns, a row count with
`0 ≤ total ≤ 2^63 - limit`, and every limit of at least 1 (so every normalised
limit in `[1, 100]`), the handlers' expression in 64-bit arithmetic equals the
ceiling of `total / limit`; it is 0 when the total is 0 and 1 when
`1 ≤ total ≤ limit`. -/
theorem totalPages_ceil (total limit : Int) (ht : 0 ≤ total) (hl : 1 ≤ limit)
    (hb : total + limit ≤ 2 ^ 63) :
    totalPages total limit = ⌈(total : ℚ) / (limit : ℚ)⌉ ∧
    (total = 0 → totalPages total limit = 0) ∧
    (1 ≤ total → total ≤ limit → totalPages total limit = 1) := by
  have he := totalPages_eq_ediv total limit ht hl hb
  refine ⟨by rw [he]; exact ediv_eq_ceil total limit hl, ?_, ?_⟩
  · intro h0
    rw [he, h0]
    exact Int.ediv_eq_zero_of_lt (by omega) (by omega)
  · intro h1 h2
    rw [he]
    apply Int.le_antisymm
    · have : (total + limit - 1) / limit < 2 :=
        Int.ediv_lt_of_lt_mul (by omega) (by omega)
      omega
    · exact Int.le_ediv_of_mul_le (by omega) (by omega)

/-- Witness for C14: 95 rows at 10 per page make 10 pages. -/
theorem totalPages_ceil_witness :
    totalPages 95 10 = ⌈((95 : Int) : ℚ) / ((10 : Int) : ℚ)⌉ :=
  (totalPages_ceil 95 10 (by decide) (by decide) (by decide)).1

/-- C15, as stated, fails: page `2^63 - 1` with limit 100 passes the clamps
unchanged, and the offset computed from it wraps to `-200`, which is negative
and is not the product `(page - 1) * limit`. -/
theorem pageOffset_overflow :
    clampPaging (2 ^ 63 - 1) 100 = (2 ^ 63 - 1, 100) ∧
    pageOffset (clampPaging (2 ^ 63 - 1) 100).1 (clampPaging (2 ^ 63 - 1) 100).2 = -200 ∧
    pageOffset (clampPaging (2 ^ 63 - 1) 100).1 (clampPaging (2 ^ 63 - 1) 100).2 ≠
      ((clampPaging (2 ^ 63 - 1) 100).1 - 1) * (clampPaging (2 ^ 63 - 1) 100).2 ∧
    ¬ 0 ≤ pageOffset (clampPaging (2 ^ 63 - 1) 100).1 (clampPaging (2 ^ 63 - 1) 100).2 := by
  have hc : clampPaging (2 ^ 63 - 1) 100 = (2 ^ 63 - 1, 100) := by decide
  rw [hc]
  have hv : pageOffset (2 ^ 63 - 1) 100 = -200 := by decide
  refine ⟨rfl, hv, ?_, ?_⟩
  · rw [hv]; decide
  · rw [hv]; decide

/-- C15, amended: the handlers use `page' = max page 1` and a limit in
`[1, 100]` that is the requested one when that lies in `[1, 100]` and 10
otherwise; whenever `(page' - 1) * limit'` is below `2^63` the offset handed to
the store is exactly that product and is not negative. -/
theorem clampPaging_offset (page limit : Int) :
    (clampPaging page limit).1 = max page 1 ∧
    1 ≤ (clampPaging page limit).2 ∧ (clampPaging page limit).2 ≤ 100 ∧
    (1 ≤ limit → limit ≤ 100 → (clampPaging page limit).2 = limit) ∧
    (¬ (1 ≤ limit ∧ limit ≤ 100) → (clampPaging page limit).2 = 10) ∧
    (((clampPaging page limit).1 - 1) * (clampPaging page limit).2 < 2 ^ 63 →
      pageOffset (clampPaging page limit).1 (clampPaging page limit).2 =
        ((clampPaging page limit).1 - 1) * (clampPaging page limit).2 ∧
      0 ≤ pageOffset (clampPaging page limit).1 (clampPaging page limit).2) := by
  have hp : (clampPaging page limit).1 = max page 1 := by
    simp only [clampPaging]
    by_cases h : page < 1
    · simp only [h, if_true]; omega
    · simp only [h, if_false]; omega
  have hl : 1 ≤ (clampPaging page limit).2 ∧ (clampPaging page limit).2 ≤ 100 := by
    simp only [clampPaging]
    by_cases h : limit < 1 ∨ limit > 100
    · simp only [h, if_true]; omega
    · simp only [h, if_false]; omega
  refine ⟨hp, hl.1, hl.2, ?_, ?_, ?_⟩
  · intro h1 h2
    have : ¬ (limit < 1 ∨ limit > 100) := by omega
    simp only [clampPaging, this, if_false]
  · intro h
    have : limit < 1 ∨ limit > 100 := by omega
    simp only [clampPaging, this, if_true]
  · intro hno
    have hp1 : 0 ≤ (clampPaging page limit).1 - 1 := by rw [hp]; omega
    have hprod : 0 ≤ ((clampPaging page limit).1 - 1) * (clampPaging page limit).2 :=
      Int.mul_nonneg hp1 (by omega)
    have hle : (clampPaging page limit).1 - 1 ≤
        ((clampPaging page limit).1 - 1) * (clampPaging page limit).2 := by
      have := Int.mul_le_mul_of_nonneg_left hl.1 hp1
      simpa using this
    have hoff : pageOffset (clampPaging page limit).1 (clampPaging page limit).2 =
        ((clampPaging page limit).1 - 1) * (clampPaging page limit).2 := by
      unfold pageOffset
      rw [wrap64_of_range ((clampPaging page limit).1 - 1) (by omega) (by omega)]
      exact wrap64_of_range _ (by omega) hno
    exact ⟨hoff, by rw [hoff]; exact hprod⟩

/-! ## The overdue listing -/

theorem sweep_no_lapsed (t : Nat) (s : Store) :
    (UpdateOverdueStatus noFaults t s).2.borrowings.filter (isLapsed t) = [] := by
  rw [List.filter_eq_nil_iff]
  intro b hb hl
  have hs : b.status = "borrowed" := by
    simp only [isLapsed, Bool.and_eq_true, beq_iff_eq] at hl
    exact hl.1
  have := (sweep_borrowed_subset t s b hb hs).2
  rw [this] at hl
  exact Bool.false_ne_true hl

theorem orderByDueDate_spec (l : List Borrowing) :
    (orderByDueDate l).Sorted (fun a b => a.dueDate ≤ b.dueDate) ∧
    (orderByDueDate l).Perm l := by
  haveI : IsTotal Borrowing (fun a b => a.dueDate ≤ b.dueDate) :=
    ⟨fun a b => Nat.le_total a.dueDate b.dueDate⟩
  haveI : IsTrans Borrowing (fun a b => a.dueDate ≤ b.dueDate) :=
    ⟨fun _ _ _ h1 h2 => Nat.le_trans h1 h2⟩
  exact ⟨List.sorted_insertionSort _ l, List.perm_insertionSort _ l⟩

/-- C16, as stated, fails: page `2^63 - 1` with limit 100 passes the handler's
clamps unchanged; the offset computed from it wraps to `-200`, which skips
nothing, so the listing at 20 returns the five lapsed borrowings, whereas the
window starting at `(page - 1) * limit` of those borrowings is empty. -/
theorem GetOverdueBorrowings_offset_wraps :
    clampPaging (2 ^ 63 - 1) 100 = (2 ^ 63 - 1, 100) ∧
    GetOverdueBorrowings noFaults 20 overdueStore (2 ^ 63 - 1) 100 =
      .ok ([⟨5, 4, 8, 0, 1, none, "borrowed"⟩, ⟨2, 2, 7, 0, 3, none, "borrowed"⟩,
            ⟨7, 6, 8, 0, 5, none, "borrowed"⟩, ⟨4, 3, 7, 0, 7, none, "borrowed"⟩,
            ⟨1, 1, 7, 0, 9, none, "borrowed"⟩], 5) ∧
    ((orderByDueDate (overdueStore.borrowings.filter (isLapsed 20))).drop
      ((2 ^ 63 - 1 - 1) * 100 : Int).toNat).take (100 : Int).toNat = [] := by
  refine ⟨by decide, ?_, ?_⟩
  · have hoff : pageOffset (2 ^ 63 - 1) 100 = -200 := by decide
    simp only [GetOverdueBorrowings, noFaults, Bool.false_eq_true, if_false, hoff]
    rfl
  · have hlen : (orderByDueDate (overdueStore.borrowings.filter (isLapsed 20))).length ≤
        ((2 ^ 63 - 1 - 1) * 100 : Int).toNat := by
      have h5 : (orderByDueDate (overdueStore.borrowings.filter (isLapsed 20))).length = 5 := rfl
      rw [h5]
      decide
    rw [List.drop_eq_nil_of_le hlen]
    rfl

/-- C16, amended: for a page of at least 1 and a limit of at least 1 whose
offset `(page - 1) * limit` is below `2^63`, and with no store fault,
`GetOverdueBorrowings` at `now` returns as total the number of borrowings with
status `borrowed` and `due_date < now`, and as items the rows from position
`offset` up to `offset + limit` of those borrowings arranged by ascending due
date; every item has status `borrowed` and is due before `now`, and there are
at most `limit` items. -/
theorem GetOverdueBorrowings_window (now : Nat) (s : Store) (page limit : Int)
    (hp : 1 ≤ page) (hl : 1 ≤ limit) (hno : (page - 1) * limit < 2 ^ 63) :
    ∃ items, GetOverdueBorrowings noFaults now s page limit =
        .ok (items, ((s.borrowings.filter (isLapsed now)).length : Int)) ∧
      items = ((orderByDueDate (s.borrowings.filter (isLapsed now))).drop
        ((page - 1) * limit).toNat).take limit.toNat ∧
      (orderByDueDate (s.borrowings.filter (isLapsed now))).Sorted
        (fun a b => a.dueDate ≤ b.dueDate) ∧
      (orderByDueDate (s.borrowings.filter (isLapsed now))).Perm
        (s.borrowings.filter (isLapsed now)) ∧
      (∀ b ∈ items, b.status = "borrowed" ∧ b.dueDate < now) ∧
      (items.length : Int) ≤ limit := by
  have hp1 : 0 ≤ page - 1 := by omega
  have hle : page - 1 ≤ (page - 1) * limit := by
    have := Int.mul_le_mul_of_nonneg_left hl hp1
    simpa using this
  have hoff : pageOffset page limit = (page - 1) * limit := by
    unfold pageOffset
    rw [wrap64_of_range (page - 1) (by omega) (by omega)]
    exact wrap64_of_range _ (by omega) hno
  have hlim : ¬ limit < 0 := by omega
  obtain ⟨hsorted, hperm⟩ := orderByDueDate_spec (s.borrowings.filter (isLapsed now))
  refine ⟨_, ?_, rfl, hsorted, hperm, ?_, ?_⟩
  · simp only [GetOverdueBorrowings, noFaults, Bool.false_eq_true, if_false, hoff, offsetLimit,
      hlim, countBorrowings]
  · intro b hb
    have hb1 := List.mem_of_mem_drop (List.mem_of_mem_take hb)
    have hb2 := (List.mem_filter.mp (hperm.subset hb1)).2
    simp only [isLapsed, Bool.and_eq_true, beq_iff_eq, decide_eq_true_eq] at hb2
    exact hb2
  · have h1 := List.length_take_le limit.toNat
      ((orderByDueDate (s.borrowings.filter (isLapsed now))).drop ((page - 1) * limit).toNat)
    have h2 : (limit.toNat : Int) = limit := Int.toNat_of_nonneg (by omega)
    omega

/-- Witness for C16 (amended): at 20, page 2 of 2 rows per page of the library
with five lapsed borrowings holds the third and fourth of them by due date,
the ones due at 5 and at 7. -/
theorem GetOverdueBorrowings_window_witness :
    GetOverdueBorrowings noFaults 20 overdueStore 2 2 =
      .ok ([⟨7, 6, 8, 0, 5, none, "borrowed"⟩, ⟨4, 3, 7, 0, 7, none, "borrowed"⟩], 5) ∧
    orderByDueDate (overdueStore.borrowings.filter (isLapsed 20)) =
      [⟨5, 4, 8, 0, 1, none, "borrowed"⟩, ⟨2, 2, 7, 0, 3, none, "borrowed"⟩,
       ⟨7, 6, 8, 0, 5, none, "borrowed"⟩, ⟨4, 3, 7, 0, 7, none, "borrowed"⟩,
       ⟨1, 1, 7, 0, 9, none, "borrowed"⟩] ∧
    (orderByDueDate (overdueStore.borrowings.filter (isLapsed 20))).Sorted
      (fun a b => a.dueDate ≤ b.dueDate) := by
  obtain ⟨items, hres, hitems, hsorted, _, _, _⟩ :=
    GetOverdueBorrowings_window 20 overdueStore 2 2 (by decide) (by decide) (by decide)
  have hval : items =
      [⟨7, 6, 8, 0, 5, none, "borrowed"⟩, ⟨4, 3, 7, 0, 7, none, "borrowed"⟩] :=
    hitems.trans rfl
  rw [hval] at hres
  exact ⟨hres, rfl, hsorted⟩

/-- C18: right after the sweep at `t`, the overdue listing evaluated at `t`,
its store calls not failing, is empty with total 0, for every page and limit. -/
theorem sweep_empties_overdue_listing (t : Nat) (s : Store) (page limit : Int) :
    GetOverdueBorrowings noFaults t (UpdateOverdueStatus noFaults t s).2 page limit =
      .ok ([], 0) := by
  have hnil := sweep_no_lapsed t s
  have hord : orderByDueDate ([] : List Borrowing) = [] := rfl
  have hwin : ∀ o l : Int, offsetLimit o l [] = [] := by
    intro o l
    unfold offsetLimit
    by_cases h : l < 0
    · simp [h]
    · simp [h]
  simp only [GetOverdueBorrowings, noFaults, Bool.false_eq_true, if_false, countBorrowings,
    hnil, hord, hwin, List.length_nil]
  rfl

end Library
